import Mathlib

set_option maxHeartbeats 1000000
set_option maxRecDepth 4000

/-!
Shallow embedding of the blosc2_btune adaptive tuner (btune.c) and of the
entropy probe (entropy_probe.c).

Modelling conventions:
* C `float`/`double` values are modelled as rationals (`ℚ`); the claims
  settled here are robust to the tiny rounding differences this ignores.
* C machine integers are modelled as `Nat`/`Int`; none of the quantities
  exercised by the claims approaches a word-size boundary.
* C integer division in the source (for instance the literal `1/3`, which
  evaluates to `0` in C) is reproduced faithfully with `Int` division.
* The model-driven inference front-end lives in `btune_model.cpp`, which is
  not part of the provided sources; following the spec, it is modelled as
  disabled (no models directory): `btune_model_init` leaves
  `inference_count = 0` and inference calls fail with a nonzero error code.
-/

/-! Constants from the external blosc2 headers used by btune.c. -/

def BLOSC_BLOSCLZ : Nat := 0

def BLOSC_LZ4 : Nat := 1

def BLOSC_LZ4HC : Nat := 2

def BLOSC_ZLIB : Nat := 4

def BLOSC_ZSTD : Nat := 5

def BLOSC_NOFILTER : Nat := 0

def BLOSC_SHUFFLE : Nat := 1

def BLOSC_BITSHUFFLE : Nat := 2

def BLOSC_FILTER_BYTEDELTA : Nat := 35

def BLOSC_ALWAYS_SPLIT : Nat := 1

def BLOSC_NEVER_SPLIT : Nat := 2

def BLOSC_AUTO_SPLIT : Nat := 3

def BLOSC2_MAX_FILTERS : Nat := 6

/-- Header overhead of a blosc2 chunk (`BLOSC2_MAX_OVERHEAD`). -/
def BLOSC2_MAX_OVERHEAD : Nat := 32

/-! Internal btune control constants (enum at the top of btune.c). -/

def BTUNE_KB : Nat := 1024

def MIN_BITSHUFFLE : Int := 1

def MIN_SHUFFLE : Int := 2

def MAX_SHUFFLE : Int := 16

def MIN_THREADS : Int := 1

def SOFT_STEP_SIZE : Nat := 1

def HARD_STEP_SIZE : Nat := 2

def MAX_STATE_THREADS : Nat := 50

def BTUNE_ENABLE_SHUFFLESIZE : Bool := false

def BTUNE_ENABLE_MEMCPY : Bool := false

def BTUNE_ENABLE_THREADS : Bool := true

/-! Enumerations of btune.h / btune-private.h. -/

inductive BtunePerfMode where
  | COMP
  | DECOMP
  | BALANCED
  | AUTO
deriving DecidableEq

inductive BtuneRepeatMode where
  | REPEAT_ALL
  | REPEAT_SOFT
  | STOP
deriving DecidableEq

inductive BtuneState where
  | CODEC_FILTER
  | SHUFFLE_SIZE
  | THREADS
  | CLEVEL
  | MEMCPY
  | WAITING
  | STOP
deriving DecidableEq

inductive ReadaptType where
  | HARD
  | SOFT
  | WAIT
deriving DecidableEq

/-- The `btune_behaviour` configuration record. -/
structure BtuneBehaviour where
  nwaits_before_readapt : Nat
  nsofts_before_hard : Nat
  nhards_before_stop : Nat
  repeat_mode : BtuneRepeatMode
deriving DecidableEq

/-- The `btune_config` record (the fields the provided sources read).
`use_inference` and `models_dir` belong to the absent inference front-end
and are modelled by inference being disabled. -/
structure BtuneConfig where
  perf_mode : BtunePerfMode
  tradeoff : ℚ
  bandwidth : ℚ
  behaviour : BtuneBehaviour
  cparams_hint : Bool
deriving DecidableEq

/-- The candidate parameter tuple `cparams_btune`. -/
structure cparams_btune where
  compcode : Nat
  filter : Nat
  splitmode : Nat
  clevel : Int
  blocksize : Int
  shufflesize : Int
  nthreads_comp : Int
  nthreads_decomp : Int
  increasing_clevel : Bool
  increasing_block : Bool
  increasing_shuffle : Bool
  increasing_nthreads : Bool
  score : ℚ
  cratio : ℚ
  ctime : ℚ
  dtime : ℚ
deriving DecidableEq

/-- `cparams_btune_default` from btune.c. -/
def cparams_btune_default : cparams_btune :=
  { compcode := BLOSC_LZ4
    filter := BLOSC_SHUFFLE
    splitmode := BLOSC_ALWAYS_SPLIT
    clevel := 9
    blocksize := 0
    shufflesize := 0
    nthreads_comp := 0
    nthreads_decomp := 0
    increasing_clevel := false
    increasing_block := true
    increasing_shuffle := true
    increasing_nthreads := true
    score := 100
    cratio := 1
    ctime := 100
    dtime := 100 }

/-- Model of the decompression context `dctx` held by the tuner
(`nthreads` is its thread count, `new_nthreads` the pending request). -/
structure DctxModel where
  nthreads : Int
  new_nthreads : Int
deriving DecidableEq

/-- Model of the relevant mutable fields of the compression context
`blosc2_context` (cctx).  `filters` is the 6-slot filter pipeline;
`destsize` is the compressed size written back by the compressor between
`next_cparams` and `update`; `dest_nonnull` models `context->dest != NULL`. -/
structure BloscContext where
  compcode : Nat
  filters : List Nat
  filters_meta : List Nat
  splitmode : Nat
  clevel : Int
  blocksize : Int
  typesize : Int
  schunk_typesize : Int
  nthreads : Int
  new_nthreads : Int
  sourcesize : Int
  destsize : Int
  dest_nonnull : Bool
deriving DecidableEq

/-- The tuner state `btune_struct` (btune-private.h), restricted to the
fields the provided sources use.  `codecs`, `filters` and `clevels` carry
their own lengths (`ncodecs`, `nfilters`, `nclevels`).  `current_scores`
and `current_cratios` are the rolling measurement arrays, which btune.c
allocates with room for exactly one element. -/
structure btune_struct where
  config : BtuneConfig
  dctx : Option DctxModel
  codecs : List Nat
  filters : List Nat
  clevels : List Int
  clevel_index : Nat
  splitmode : Nat
  state : BtuneState
  readapt_from : ReadaptType
  step_size : Nat
  aux_index : Nat
  rep_index : Nat
  steps_count : Nat
  nsofts : Nat
  nhards : Nat
  nwaitings : Nat
  is_repeating : Bool
  threads_for_comp : Bool
  max_threads : Int
  nthreads_decomp : Int
  best : cparams_btune
  aux_cparams : cparams_btune
  current_scores : List ℚ
  current_cratios : List ℚ
  inference_count : Int
  inference_ended : Bool
deriving DecidableEq

/-! Small helpers of btune.c. -/

/-- `add_codec`: append a codec to the admissible list unless present. -/
def add_codec (st : btune_struct) (compcode : Nat) : btune_struct :=
  if compcode ∈ st.codecs then st
  else { st with codecs := st.codecs ++ [compcode] }

/-- `add_filter`: append a filter to the admissible list unless present. -/
def add_filter (st : btune_struct) (filter : Nat) : btune_struct :=
  if filter ∈ st.filters then st
  else { st with filters := st.filters ++ [filter] }

/-- `btune_init_codecs`: derive the admissible codec list from the
tradeoff and the performance mode.  `zstd_avail`/`zlib_avail` model the
`strstr(blosc2_list_compressors(), ...)` availability probes. -/
def btune_init_codecs (st : btune_struct) (zstd_avail zlib_avail : Bool) :
    btune_struct :=
  -- the C literals 0.666666 and 0.333333, written in kernel-computable form
  if (mkRat 666666 1000000 : ℚ) ≤ st.config.tradeoff then
    let st := if zstd_avail then add_codec st BLOSC_ZSTD else st
    if zlib_avail then add_codec st BLOSC_ZLIB else st
  else
    let st := add_codec st BLOSC_LZ4
    let st := if (mkRat 333333 1000000 : ℚ) ≤ st.config.tradeoff then
      add_codec st BLOSC_BLOSCLZ else st
    if st.config.perf_mode = BtunePerfMode.DECOMP then
      add_codec st BLOSC_LZ4HC else st

/-- `btune_init_clevels`: set up the clevel ladder `[min..max]` and point
`clevel_index` at `start`; the current best/aux tuples jump to `start`.
(When btune.c calls this during `btune_init`, `best`/`aux_cparams` are
still NULL so their writes are skipped; the model performs them on the
already-present records, which the subsequent default assignment makes
observationally identical.) -/
def btune_init_clevels (st : btune_struct) (min max start : Int) :
    btune_struct :=
  { st with
    best := { st.best with clevel := start }
    aux_cparams := { st.aux_cparams with clevel := start }
    clevels := (List.range (max - min + 1).toNat).map (fun i => min + i)
    clevel_index := (start - min).toNat }

/-- `extract_btune_cparams`: read the tuple currently installed on the
context. -/
def extract_btune_cparams (ctx : BloscContext) (st : btune_struct)
    (cp : cparams_btune) : cparams_btune :=
  { cp with
    compcode := ctx.compcode
    filter := ctx.filters.getD (BLOSC2_MAX_FILTERS - 1) 0
    clevel := ctx.clevel
    splitmode := ctx.splitmode
    blocksize := ctx.blocksize
    shufflesize := ctx.typesize
    nthreads_comp := ctx.nthreads
    nthreads_decomp :=
      match st.dctx with
      | none => st.nthreads_decomp
      | some d => d.nthreads }

/-- `has_ended_clevel`: can the clevel index still move by `step_size`? -/
def has_ended_clevel (st : btune_struct) : Bool :=
  if st.best.increasing_clevel then
    st.clevels.length ≤ st.clevel_index + st.step_size
  else
    st.clevel_index < st.step_size

/-- `has_ended_shuffle`. -/
def has_ended_shuffle (best : cparams_btune) : Bool :=
  let min_shuffle : Int :=
    if best.filter = BLOSC_SHUFFLE then MIN_SHUFFLE else MIN_BITSHUFFLE
  (best.increasing_shuffle && best.shufflesize = MAX_SHUFFLE) ||
  (!best.increasing_shuffle && best.shufflesize = min_shuffle)

/-- `has_ended_threads`. -/
def has_ended_threads (st : btune_struct) : Bool :=
  let nthreads :=
    if st.threads_for_comp then st.best.nthreads_comp
    else st.best.nthreads_decomp
  (st.best.increasing_nthreads && nthreads = st.max_threads) ||
  (!st.best.increasing_nthreads && nthreads = MIN_THREADS)

/-- `init_soft`: start a soft readapt at CLEVEL with step size 1. -/
def init_soft (st : btune_struct) : btune_struct :=
  let st :=
    if has_ended_clevel st then
      { st with best :=
        { st.best with increasing_clevel := !st.best.increasing_clevel } }
    else st
  { st with
    state := BtuneState.CLEVEL
    step_size := SOFT_STEP_SIZE
    readapt_from := ReadaptType.SOFT }

/-- `init_hard`: start a hard readapt at CODEC_FILTER with step size 2. -/
def init_hard (st : btune_struct) : btune_struct :=
  let st :=
    { st with
      state := BtuneState.CODEC_FILTER
      step_size := HARD_STEP_SIZE
      readapt_from := ReadaptType.HARD
      threads_for_comp := !(st.config.perf_mode = BtunePerfMode.DECOMP) }
  if has_ended_shuffle st.best then
    { st with best :=
      { st.best with increasing_shuffle := !st.best.increasing_shuffle } }
  else st

/-- `init_without_hards`: pick the initial state when no hard readapt is
scheduled.  The C switch falls through from `BTUNE_REPEAT_ALL` to
`BTUNE_REPEAT_SOFT` to `BTUNE_STOP` when the respective guard fails. -/
def init_without_hards (st : btune_struct) : btune_struct :=
  let behaviour := st.config.behaviour
  let minimum_hards : Nat := if !st.config.cparams_hint then 1 else 0
  let stop_case : btune_struct → btune_struct := fun st =>
    if minimum_hards = 0 ∧ 0 < behaviour.nsofts_before_hard then
      init_soft st
    else
      { st with state := BtuneState.STOP, readapt_from := ReadaptType.WAIT }
  let soft_case : btune_struct → btune_struct := fun st =>
    if 0 < behaviour.nsofts_before_hard then init_soft st else stop_case st
  let all_case : btune_struct → btune_struct := fun st =>
    if minimum_hards < behaviour.nhards_before_stop then init_hard st
    else soft_case st
  let st :=
    match behaviour.repeat_mode with
    | BtuneRepeatMode.REPEAT_ALL => all_case st
    | BtuneRepeatMode.REPEAT_SOFT => soft_case st
    | BtuneRepeatMode.STOP => stop_case st
  { st with is_repeating := true }

/-- `score_function`: combine times and compressed size into the scalar
score, depending on the performance mode. -/
def score_function (st : btune_struct) (ctime : ℚ) (cbytes : Int)
    (dtime : ℚ) : ℚ :=
  let reduced_cbytes : ℚ := (cbytes : ℚ) / (BTUNE_KB : ℚ)
  match st.config.perf_mode with
  | BtunePerfMode.COMP => ctime + reduced_cbytes / st.config.bandwidth
  | BtunePerfMode.DECOMP => reduced_cbytes / st.config.bandwidth + dtime
  | BtunePerfMode.BALANCED =>
      ctime + reduced_cbytes / st.config.bandwidth + dtime
  | BtunePerfMode.AUTO => -1

/-- `mean`: average of the first `size` entries of the rolling array. -/
def mean (array : List ℚ) (size : Nat) : ℚ :=
  ((array.take size).foldl (· + ·) 0) / (size : ℚ)

/-- `has_improved`: the improvement oracle.  The band guards compare the
(float) tradeoff against the C expressions `1/3` and `2/3`, which are
integer divisions and hence both evaluate to `0`; this is reproduced
faithfully below.  The C double literals 0.5, 0.67, 1.3, 0.7, 1.1, 0.8
are written as `mkRat` values so they compute in the kernel. -/
def has_improved (st : btune_struct) (score_coef cratio_coef : ℚ) : Bool :=
  let tradeoff := st.config.tradeoff
  if tradeoff ≤ (((1 : Int) / 3 : Int) : ℚ) then
    (cratio_coef > 1 && score_coef > 1) ||
    (cratio_coef > mkRat 5 10 && score_coef > 2) ||
    (cratio_coef > mkRat 67 100 && score_coef > mkRat 13 10) ||
    (cratio_coef > 2 && score_coef > mkRat 7 10)
  else if tradeoff ≤ (((2 : Int) / 3 : Int) : ℚ) then
    (cratio_coef > 1 && score_coef > 1) ||
    (cratio_coef > mkRat 11 10 && score_coef > mkRat 8 10) ||
    (cratio_coef > mkRat 13 10 && score_coef > mkRat 5 10)
  else if tradeoff ≤ 1 then
    cratio_coef > 1
  else
    false

/-- `set_btune_cparams`: install a candidate tuple on the context.
Returns the updated context, the updated tuner state (the no-dctx branch
stores `nthreads_decomp` there; with a dctx it updates its
`new_nthreads`), and the tuple itself, whose `clevel` the two band guards
may rewrite.  Both guards are C double-comparisons of the form
`a/b <= tradeoff <= c/d` with integer-divided bounds, parsed as
`((a/b <= tradeoff) <= c/d)`; the first (`1/3 <= t <= 2/3`, i.e.
`(0 <= t) <= 0`) is false whenever `0 ≤ tradeoff`, and the second
(`2/3 <= t <= 1.0`, i.e. `(0 <= t) <= 1.0`) is always true.  Note the
guards run after `context->clevel` has already been assigned, so only the
tuple's clevel is capped. -/
def set_btune_cparams (ctx : BloscContext) (st : btune_struct)
    (cp : cparams_btune) : BloscContext × btune_struct × cparams_btune :=
  let ctx := { ctx with compcode := cp.compcode }
  let ctx := { ctx with
    filters := (List.replicate BLOSC2_MAX_FILTERS 0).set
      (BLOSC2_MAX_FILTERS - 1) cp.filter }
  let ctx :=
    if cp.filter = BLOSC_FILTER_BYTEDELTA then
      { ctx with
        filters := ctx.filters.set (BLOSC2_MAX_FILTERS - 2) BLOSC_SHUFFLE
        filters_meta := ctx.filters_meta.set (BLOSC2_MAX_FILTERS - 1)
          ctx.schunk_typesize.toNat }
    else ctx
  let ctx := { ctx with splitmode := cp.splitmode, clevel := cp.clevel }
  let cp :=
    if ((if (((1 : Int) / 3 : Int) : ℚ) ≤ st.config.tradeoff
          then (1 : Int) else 0) ≤ ((2 : Int) / 3 : Int)) ∧
       (cp.compcode = BLOSC_ZSTD ∨ cp.compcode = BLOSC_ZLIB) ∧
       3 ≤ cp.clevel then
      { cp with clevel := 3 }
    else cp
  let cp :=
    if ((if (((2 : Int) / 3 : Int) : ℚ) ≤ st.config.tradeoff
          then (1 : ℚ) else 0) ≤ (1 : ℚ)) ∧ 6 ≤ cp.clevel then
      { cp with clevel := 6 }
    else cp
  let ctx := if cp.blocksize ≠ 0 then { ctx with blocksize := cp.blocksize }
    else ctx
  let ctx := { ctx with
    typesize := cp.shufflesize
    new_nthreads := cp.nthreads_comp }
  let st :=
    match st.dctx with
    | none => { st with nthreads_decomp := cp.nthreads_decomp }
    | some d =>
        { st with dctx := some { d with new_nthreads := cp.nthreads_decomp } }
  (ctx, st, cp)

/-- `btune_next_cparams`: propose the next candidate tuple.  The
inference front-end (btune_model.cpp, absent from the sources) is
modelled from the spec as disabled: `btune_model_inference` and
`most_predicted` always fail with a nonzero error, so the seeding branch
(`error == 0`) is dead and only `inference_count`/`inference_ended` move.
`btune_next_inference` is that front-end prelude. -/
def btune_next_inference (st : btune_struct) : btune_struct :=
  if st.inference_count ≠ 0 then
    if 0 < st.inference_count then
      { st with inference_count := st.inference_count - 1 }
    else st
  else if !st.inference_ended then
    { st with inference_ended := true }
  else st

def btune_next_cparams (ctx : BloscContext) (st : btune_struct) :
    BloscContext × btune_struct :=
  let st := btune_next_inference st
  let st := { st with aux_cparams := st.best }
  let cp := st.aux_cparams
  match st.state with
  | BtuneState.STOP => (ctx, st)
  | BtuneState.CODEC_FILTER =>
      let n_filters_splits := st.filters.length * 2
      let cp := { cp with
        compcode := st.codecs.getD (st.aux_index / n_filters_splits) 0
        filter := st.filters.getD ((st.aux_index % n_filters_splits) / 2) 0 }
      let cp := { cp with
        splitmode :=
          if st.splitmode = BLOSC_AUTO_SPLIT then (st.aux_index % 2) + 1
          else st.splitmode }
      let cp :=
        if (st.config.perf_mode = BtunePerfMode.COMP ∨
            st.config.perf_mode = BtunePerfMode.BALANCED) ∧
           (cp.compcode = BLOSC_ZSTD ∨ cp.compcode = BLOSC_ZLIB) ∧
           st.nhards = 0 then
          { cp with clevel := 3 }
        else cp
      let st :=
        if st.inference_ended then { st with aux_index := st.aux_index + 1 }
        else st
      finish ctx st cp
  | BtuneState.SHUFFLE_SIZE =>
      let st := { st with aux_index := st.aux_index + 1 }
      let cp :=
        if cp.increasing_shuffle then
          if cp.shufflesize < MAX_SHUFFLE then
            { cp with shufflesize := cp.shufflesize * 2 }
          else cp
        else
          let min_shuffle : Int :=
            if cp.filter = 1 then MIN_SHUFFLE else MIN_BITSHUFFLE
          if min_shuffle < cp.shufflesize then
            { cp with shufflesize := cp.shufflesize / 2 }
          else cp
      finish ctx st cp
  | BtuneState.THREADS =>
      let st := { st with aux_index := st.aux_index + 1 }
      let cp :=
        if st.threads_for_comp then
          if cp.increasing_nthreads then
            if cp.nthreads_comp < st.max_threads then
              { cp with nthreads_comp := cp.nthreads_comp + 1 }
            else cp
          else
            if MIN_THREADS < cp.nthreads_comp then
              { cp with nthreads_comp := cp.nthreads_comp - 1 }
            else cp
        else
          if cp.increasing_nthreads then
            if cp.nthreads_decomp < st.max_threads then
              { cp with nthreads_decomp := cp.nthreads_decomp + 1 }
            else cp
          else
            if MIN_THREADS < cp.nthreads_decomp then
              { cp with nthreads_decomp := cp.nthreads_decomp - 1 }
            else cp
      finish ctx st cp
  | BtuneState.CLEVEL =>
      let st := { st with aux_index := st.aux_index + 1 }
      let st :=
        if !has_ended_clevel st then
          if cp.increasing_clevel then
            { st with clevel_index := st.clevel_index + st.step_size }
          else
            { st with clevel_index := st.clevel_index - st.step_size }
        else st
      let cp := { cp with clevel := st.clevels.getD st.clevel_index 0 }
      let cp :=
        if cp.clevel = 9 ∧ cp.compcode = BLOSC_ZSTD then
          { cp with clevel := 8 }
        else cp
      finish ctx st cp
  | BtuneState.MEMCPY =>
      let st := { st with aux_index := st.aux_index + 1 }
      finish ctx st { cp with clevel := 0 }
  | BtuneState.WAITING =>
      finish ctx { st with nwaitings := st.nwaitings + 1 } cp
where
  /-- Tail of `btune_next_cparams` shared by every non-STOP state:
  install the tuple on the context and clamp the blocksize to the source
  size. -/
  finish (ctx : BloscContext) (st : btune_struct) (cp : cparams_btune) :
      BloscContext × btune_struct :=
    let (ctx, st, cp) := set_btune_cparams ctx st cp
    let st := { st with aux_cparams := cp }
    let ctx :=
      if ctx.sourcesize < ctx.blocksize then
        { ctx with blocksize := ctx.sourcesize }
      else ctx
    (ctx, st)

/-- The readapt dispatch of `process_waiting_state` (the C switch on
`readapt_from`). -/
def process_waiting_core (st : btune_struct) : btune_struct :=
  let behaviour := st.config.behaviour
  let minimum_hards : Nat := if !st.config.cparams_hint then 1 else 0
  match st.readapt_from with
  | ReadaptType.HARD =>
      let st := { st with nhards := st.nhards + 1 }
      if behaviour.nhards_before_stop = minimum_hards ∨
         st.nhards % behaviour.nhards_before_stop = 0 then
        let st := { st with is_repeating := true }
        if 0 < behaviour.nsofts_before_hard ∧
           behaviour.repeat_mode ≠ BtuneRepeatMode.STOP then
          init_soft st
        else if behaviour.repeat_mode ≠ BtuneRepeatMode.REPEAT_ALL then
          { st with state := BtuneState.STOP }
        else if 0 < behaviour.nwaits_before_readapt then
          { st with state := BtuneState.WAITING
                    readapt_from := ReadaptType.WAIT }
        else if minimum_hards < behaviour.nhards_before_stop then
          init_hard st
        else
          { st with state := BtuneState.STOP }
      else if 0 < behaviour.nsofts_before_hard then
        init_soft st
      else if 0 < behaviour.nwaits_before_readapt then
        { st with state := BtuneState.WAITING
                  readapt_from := ReadaptType.WAIT }
      else
        init_hard st
  | ReadaptType.SOFT =>
      let st := { st with nsofts := st.nsofts + 1
                          readapt_from := ReadaptType.WAIT }
      if behaviour.nwaits_before_readapt = 0 then
        if (behaviour.nsofts_before_hard = 0 ∨
            st.nsofts % behaviour.nsofts_before_hard = 0) ∧
           ¬(st.is_repeating ∧
             behaviour.repeat_mode ≠ BtuneRepeatMode.REPEAT_ALL) ∧
           minimum_hards < behaviour.nhards_before_stop then
          init_hard st
        else if minimum_hards = 0 ∧ behaviour.nhards_before_stop = 0 ∧
                st.nsofts % behaviour.nsofts_before_hard = 0 ∧
                behaviour.repeat_mode = BtuneRepeatMode.STOP then
          { st with is_repeating := true, state := BtuneState.STOP }
        else
          init_soft st
      else st
  | ReadaptType.WAIT =>
      if behaviour.nwaits_before_readapt = 0 ∨
         (st.nwaitings ≠ 0 ∧
          st.nwaitings % behaviour.nwaits_before_readapt = 0) then
        if (behaviour.nsofts_before_hard = 0 ∨
            (st.nsofts ≠ 0 ∧
             st.nsofts % behaviour.nsofts_before_hard = 0)) ∧
           ¬(st.is_repeating ∧
             behaviour.repeat_mode ≠ BtuneRepeatMode.REPEAT_ALL) ∧
           minimum_hards < behaviour.nhards_before_stop then
          init_hard st
        else if 0 < behaviour.nsofts_before_hard ∧
                ¬(st.is_repeating ∧
                  behaviour.repeat_mode = BtuneRepeatMode.STOP) then
          init_soft st
        else st
      else st

/-- `process_waiting_state`: decide, after a readapt or wait completes,
which readapt comes next (the orchestration logic of §4.5), forcing a
soft step size on the last hard. -/
def process_waiting_state (st : btune_struct) : btune_struct :=
  let st := process_waiting_core st
  if st.readapt_from = ReadaptType.HARD ∧
     (st.nhards : Int) =
       (st.config.behaviour.nhards_before_stop : Int) - 1 then
    { st with step_size := SOFT_STEP_SIZE }
  else st

/-- The per-state transition switch of `update_aux`. -/
def update_aux_switch (st : btune_struct) (improved : Bool) : btune_struct :=
  let first_time : Bool := st.aux_index = 1
  match st.state with
  | BtuneState.CODEC_FILTER =>
      let aux_index_max :=
        st.codecs.length * st.filters.length *
          (if st.splitmode = BLOSC_AUTO_SPLIT then 2 else 1)
      if aux_index_max ≤ st.aux_index then
        let st := { st with aux_index := 0 }
        let st : btune_struct :=
          if BTUNE_ENABLE_SHUFFLESIZE then
            let is_power_2 : Bool :=
              st.best.shufflesize.toNat &&& (st.best.shufflesize - 1).toNat
                == 0
            { st with state :=
                if st.best.filter ≠ 0 ∧ is_power_2 then
                  BtuneState.SHUFFLE_SIZE
                else BtuneState.THREADS }
          else
            { st with state :=
                if BTUNE_ENABLE_THREADS then BtuneState.THREADS
                else BtuneState.CLEVEL }
        let st :=
          if st.state = BtuneState.THREADS ∧ st.max_threads = 1 then
            let st := { st with state := BtuneState.CLEVEL }
            if has_ended_clevel st then
              { st with best := { st.best with
                  increasing_clevel := !st.best.increasing_clevel } }
            else st
          else st
        if BTUNE_ENABLE_SHUFFLESIZE ∧ st.state = BtuneState.SHUFFLE_SIZE
        then
          if has_ended_shuffle st.best then
            { st with best := { st.best with
                increasing_shuffle := !st.best.increasing_shuffle } }
          else st
        else if st.state = BtuneState.THREADS then
          if has_ended_shuffle st.best then
            { st with best := { st.best with
                increasing_nthreads := !st.best.increasing_nthreads } }
          else st
        else st
      else st
  | BtuneState.SHUFFLE_SIZE =>
      let st :=
        if !improved ∧ first_time then
          { st with best := { st.best with
              increasing_shuffle := !st.best.increasing_shuffle } }
        else st
      if has_ended_shuffle st.best ∨ (¬improved ∧ ¬first_time) then
        let st := { st with aux_index := 0 }
        let st := { st with state :=
          if BTUNE_ENABLE_THREADS then BtuneState.THREADS
          else BtuneState.CLEVEL }
        if st.state = BtuneState.THREADS ∧ st.max_threads = 1 then
          let st := { st with state := BtuneState.CLEVEL }
          if has_ended_clevel st then
            { st with best := { st.best with
                increasing_clevel := !st.best.increasing_clevel } }
          else st
        else
          if has_ended_threads st then
            { st with best := { st.best with
                increasing_nthreads := !st.best.increasing_nthreads } }
          else st
      else st
  | BtuneState.THREADS =>
      let first_time := st.aux_index % MAX_STATE_THREADS = 1
      let st :=
        if !improved ∧ first_time then
          { st with best := { st.best with
              increasing_nthreads := !st.best.increasing_nthreads } }
        else st
      if has_ended_threads st ∨ (¬improved ∧ ¬first_time) then
        let st :=
          if st.config.perf_mode = BtunePerfMode.BALANCED then
            if st.aux_index < MAX_STATE_THREADS then
              let st := { st with
                threads_for_comp := !st.threads_for_comp
                aux_index := MAX_STATE_THREADS }
              if has_ended_threads st then
                { st with best := { st.best with
                    increasing_nthreads := !st.best.increasing_nthreads } }
              else st
            else st
          else { st with aux_index := MAX_STATE_THREADS + 1 }
        if MAX_STATE_THREADS < st.aux_index then
          let st := { st with aux_index := 0, state := BtuneState.CLEVEL }
          if has_ended_clevel st then
            { st with best := { st.best with
                increasing_clevel := !st.best.increasing_clevel } }
          else st
        else st
      else st
  | BtuneState.CLEVEL =>
      let st :=
        if !improved ∧ first_time then
          { st with best := { st.best with
              increasing_clevel := !st.best.increasing_clevel } }
        else st
      if has_ended_clevel st ∨ (¬improved ∧ ¬first_time) then
        { st with aux_index := 0
                  state :=
                    if BTUNE_ENABLE_MEMCPY then BtuneState.MEMCPY
                    else BtuneState.WAITING }
      else st
  | BtuneState.MEMCPY =>
      { st with aux_index := 0, state := BtuneState.WAITING }
  | _ => st

/-- `update_aux`: the state-transition handling run at the end of
`btune_update`; when the switch lands in WAITING the readapt
orchestration runs. -/
def update_aux (st : btune_struct) (improved : Bool) : btune_struct :=
  let st := update_aux_switch st improved
  if st.state = BtuneState.WAITING then process_waiting_state st else st

/-- `btune_update`: record the compression results of the last proposal.
`ctime` is the measured compression time; `dtime_measured` models the
decompression timing obtained by the conditional decompression run.
`cbytes` is read from `ctx.destsize`, written there by the compressor.
Returns the new state together with `some (improved, winner)` when the
improvement decision was taken this call (`rep_index` reached 1), with
the winner trace label `W`, `-` or `S`. -/
def btune_update (ctx : BloscContext) (st : btune_struct) (ctime : ℚ)
    (dtime_measured : ℚ) : btune_struct × Option (Bool × Char) :=
  if st.state = BtuneState.STOP then (st, none)
  else
    let st := { st with steps_count := st.steps_count + 1 }
    let behaviour := st.config.behaviour
    let cbytes : Int := ctx.destsize
    let dtime : ℚ :=
      if ¬(st.state = BtuneState.WAITING ∧
           (behaviour.nwaits_before_readapt = 0 ∨
            st.nwaitings % behaviour.nwaits_before_readapt ≠ 0)) ∧
         (st.config.perf_mode = BtunePerfMode.DECOMP ∨
          st.config.perf_mode = BtunePerfMode.BALANCED) ∧
         ctx.dest_nonnull then
        dtime_measured
      else 0
    let score := score_function st ctime cbytes dtime
    let cratio_val : ℚ := (ctx.sourcesize : ℚ) / (cbytes : ℚ)
    let st := { st with aux_cparams := { st.aux_cparams with
      score := score, cratio := cratio_val, ctime := ctime, dtime := dtime } }
    let st := { st with
      current_scores := st.current_scores.set st.rep_index score
      current_cratios := st.current_cratios.set st.rep_index cratio_val
      rep_index := st.rep_index + 1 }
    if st.rep_index = 1 then
      let score := mean st.current_scores 1
      let cratio_m := mean st.current_cratios 1
      let cratio_coef := cratio_m / st.best.cratio
      let score_coef := st.best.score / score
      let improved : Bool :=
        if st.state = BtuneState.THREADS then
          if st.threads_for_comp then ctime < st.best.ctime
          else dtime < st.best.dtime
        else
          has_improved st score_coef cratio_coef
      let winner : Char := '-'
      let special := cbytes ≤ (BLOSC2_MAX_OVERHEAD : Int) + ctx.typesize
      let improved := if special then false else improved
      let winner := if special then 'S' else winner
      let winner := if improved then 'W' else winner
      let st := if improved then { st with best := st.aux_cparams } else st
      let st := { st with rep_index := 0 }
      let st := update_aux st improved
      (st, some (improved, winner))
    else
      (st, none)

/-- Modelled from the spec: the default tradeoff of `BTUNE_CONFIG_DEFAULTS`
(btune.h is not among the provided sources).  It is only used when the
configured tradeoff is out of range, which no theorem below exercises, so
its exact value is immaterial. -/
def BTUNE_DEFAULTS_tradeoff : ℚ := mkRat 1 2

/-- Configuration fix-up at the top of `btune_init`: resolve
`BTUNE_PERF_AUTO` (environment overrides are modelled as absent, so AUTO
becomes COMP) and clamp an out-of-range tradeoff to the default. -/
def btune_init_config (config : BtuneConfig) : BtuneConfig :=
  let cfg :=
    if config.perf_mode = BtunePerfMode.AUTO then
      { config with perf_mode := BtunePerfMode.COMP }
    else config
  if cfg.tradeoff < 0 ∨ 1 < cfg.tradeoff then
    { cfg with tradeoff := BTUNE_DEFAULTS_tradeoff }
  else cfg

/-- The zero-initialised (`calloc`) tuner state holding a configuration
and the optional decompression context. -/
def btune_init_base (cfg : BtuneConfig) (dctx : Option DctxModel) :
    btune_struct :=
  { config := cfg
    dctx := dctx
    codecs := []
    filters := []
    clevels := []
    clevel_index := 0
    splitmode := 0
    state := BtuneState.CODEC_FILTER
    readapt_from := ReadaptType.HARD
    step_size := 0
    aux_index := 0
    rep_index := 0
    steps_count := 0
    nsofts := 0
    nhards := 0
    nwaitings := 0
    is_repeating := false
    threads_for_comp := false
    max_threads := 0
    nthreads_decomp := 0
    best := cparams_btune_default
    aux_cparams := cparams_btune_default
    current_scores := [0]
    current_cratios := [0]
    inference_count := 0
    inference_ended := false }

/-- The codec/filter/clevel list section of `btune_init`.  (When btune.c
calls `btune_init_clevels` here, `best`/`aux_cparams` are still NULL so
their clevel writes are skipped; in the model the tuples are already the
default, whose clevel the write leaves at 9, so the result agrees.) -/
def btune_init_lists (st : btune_struct) (zstd_avail zlib_avail : Bool) :
    btune_struct :=
  let st := btune_init_codecs st zstd_avail zlib_avail
  let st := add_filter st BLOSC_NOFILTER
  let st := add_filter st BLOSC_SHUFFLE
  let st := add_filter st BLOSC_BITSHUFFLE
  let st := { st with splitmode := BLOSC_AUTO_SPLIT }
  btune_init_clevels st 1 9 9

/-- The initial best/aux tuple section of `btune_init`: install the
default tuples, seed them from the contexts, and compute `max_threads`.
The C guard `2/3 <= btune->config.tradeoff <= 1.` parses as
`((2/3 <= t) <= 1.)` with `2/3 == 0`, which is always true, so the
clevel always starts at 8. -/
def btune_init_tuples (st : btune_struct) (cctx : BloscContext) :
    btune_struct :=
  let st := { st with
    best := { st.best with compcode := st.codecs.getD 0 0 }
    aux_cparams := { st.aux_cparams with compcode := st.codecs.getD 0 0 } }
  let st :=
    if (if (((2 : Int) / 3 : Int) : ℚ) ≤ st.config.tradeoff
        then (1 : ℚ) else 0) ≤ (1 : ℚ) then
      { st with
        best := { st.best with clevel := 8 }
        aux_cparams := { st.aux_cparams with clevel := 8 } }
    else st
  let st := { st with
    best := { st.best with
      shufflesize := cctx.typesize, nthreads_comp := cctx.nthreads }
    aux_cparams := { st.aux_cparams with
      shufflesize := cctx.typesize, nthreads_comp := cctx.nthreads } }
  let st :=
    match st.dctx with
    | some d =>
        { st with
          max_threads := if d.nthreads < cctx.nthreads then cctx.nthreads
            else d.nthreads
          best := { st.best with nthreads_decomp := d.nthreads }
          aux_cparams := { st.aux_cparams with nthreads_decomp := d.nthreads }
          nthreads_decomp := d.nthreads }
    | none =>
        { st with
          max_threads := cctx.nthreads
          best := { st.best with nthreads_decomp := cctx.nthreads }
          aux_cparams := { st.aux_cparams with
            nthreads_decomp := cctx.nthreads }
          nthreads_decomp := cctx.nthreads }
  { st with
    threads_for_comp := !(st.config.perf_mode = BtunePerfMode.DECOMP) }

/-- The cparams_hint dispatch and initial step size of `btune_init`.
Without a hint, a hard readapt starts and `nhards_before_stop` is
silently incremented. -/
def btune_init_phase (st : btune_struct) (cctx : BloscContext) :
    btune_struct :=
  let st :=
    if st.config.cparams_hint then
      let st := { st with
        best := extract_btune_cparams cctx st st.best
        aux_cparams := extract_btune_cparams cctx st st.aux_cparams }
      let st := add_codec st cctx.compcode
      if 0 < st.config.behaviour.nhards_before_stop then
        if 0 < st.config.behaviour.nsofts_before_hard then init_soft st
        else if 0 < st.config.behaviour.nwaits_before_readapt then
          { st with state := BtuneState.WAITING
                    readapt_from := ReadaptType.WAIT }
        else init_hard st
      else init_without_hards st
    else
      let st := init_hard st
      { st with config := { st.config with behaviour :=
          { st.config.behaviour with nhards_before_stop :=
              st.config.behaviour.nhards_before_stop + 1 } } }
  if st.config.behaviour.nhards_before_stop = 1 then
    { st with step_size := SOFT_STEP_SIZE }
  else
    { st with step_size := HARD_STEP_SIZE }

/-- `btune_init`: build the tuner state for a compression context.
Environment-variable overrides are modelled as absent.  `zstd_avail` and
`zlib_avail` model the availability probes of `btune_init_codecs`.
`btune_model_init` (btune_model.cpp, absent from the sources) is modelled
from the spec: with no models directory inference is disabled and
`inference_count` stays 0. -/
def btune_init (config : BtuneConfig) (cctx : BloscContext)
    (dctx : Option DctxModel) (zstd_avail zlib_avail : Bool) : btune_struct :=
  btune_init_phase
    (btune_init_tuples
      (btune_init_lists (btune_init_base (btune_init_config config) dctx)
        zstd_avail zlib_avail)
      cctx)
    cctx

/-- One interaction of the compression pipeline with the tuner: either a
`next_cparams` call, or a compression (which stores `cbytes` into
`destsize`) followed by an `update` call with the measured times. -/
inductive BtuneAction where
  | next
  | update (ctime : ℚ) (cbytes : Int) (dtime : ℚ)

/-- Run a sequence of pipeline interactions through the tuner. -/
def btune_run (ctx : BloscContext) (st : btune_struct) :
    List BtuneAction → BloscContext × btune_struct
  | [] => (ctx, st)
  | BtuneAction.next :: rest =>
      let p := btune_next_cparams ctx st
      btune_run p.1 p.2 rest
  | BtuneAction.update ctime cbytes dtime :: rest =>
      let ctx := { ctx with destsize := cbytes }
      btune_run ctx (btune_update ctx st ctime dtime).1 rest

/-! Entropy probe (entropy_probe.c).  The input buffer is a list of bytes
addressed by offsets from `ibase`; pointers become `Nat` offsets.  The
on-stack hash table (whose initial content is arbitrary stack memory,
modelled by `junk`, and which `memset` then zeroes over its `hashlen`
entries) is a function from index to stored offset. -/

def MAX_COPY : Nat := 32

def MAX_DISTANCE : Nat := 8191

def MAX_FARDISTANCE : Nat := 65535 + MAX_DISTANCE - 1

def HASH_LOG : Nat := 14

/-- The hash table length `1 << HASH_LOG`. -/
def ep_hashlen : Nat := 2 ^ HASH_LOG

/-- Read one byte of the input buffer. -/
def ep_byte (input : List Nat) (i : Nat) : Nat := input.getD i 0

/-- `BLOSCLZ_READU32`: read a 32-bit little-endian word. -/
def ep_readU32 (input : List Nat) (i : Nat) : Nat :=
  ep_byte input i + 256 * ep_byte input (i + 1) +
    65536 * ep_byte input (i + 2) + 16777216 * ep_byte input (i + 3)

/-- `HASH_FUNCTION`: `(seq * 2654435761U) >> (32 - HASH_LOG)` on uint32. -/
def ep_hash (seq : Nat) : Nat :=
  seq * 2654435761 % 2 ^ 32 / 2 ^ (32 - HASH_LOG)

/-- Number of leading bytes of an 8-byte window at `ref` equal to the run
byte `x`: the stopping point of the C rescan `while (*ref++ == x) ip++`
after an 8-byte block mismatch (a mismatch inside the window bounds it). -/
def ep_run_mismatch (input : List Nat) (x ref : Nat) : Nat :=
  ((List.range 8).takeWhile (fun k => ep_byte input (ref + k) == x)).length

/-- Remainder loop of `get_run`: advance while ip is in bounds and the
reference byte keeps matching the run byte.  The loop is written as a
structural recursion on a fuel argument so that it computes in the
kernel; every iteration increases `ip` while `ip < ip_bound`, so
`ip_bound` units of fuel (what the callers pass) are never exhausted. -/
def get_run_tail (input : List Nat) (x : Nat) :
    Nat → Nat → Nat → Nat → Nat
  | 0, ip, _ip_bound, _ref => ip
  | fuel + 1, ip, ip_bound, ref =>
    if ip < ip_bound then
      if ep_byte input ref = x then
        get_run_tail input x fuel (ip + 1) ip_bound (ref + 1)
      else ip
    else ip

/-- Fast 8-byte-stride loop of `get_run`; on a block mismatch the C code
rescans byte by byte and returns the exact first differing position. -/
def get_run_fast (input : List Nat) (x : Nat) :
    Nat → Nat → Nat → Nat → Nat
  | 0, ip, _ip_bound, _ref => ip
  | fuel + 1, ip, ip_bound, ref =>
    if ip + 8 < ip_bound then
      if (List.range 8).all (fun k => ep_byte input (ref + k) == x) then
        get_run_fast input x fuel (ip + 8) ip_bound (ref + 8)
      else ip + ep_run_mismatch input x ref
    else get_run_tail input x ip_bound ip ip_bound ref

/-- `get_run`: extend a run of the byte before `ip` (8-byte strides while
far from the bound, then byte by byte). -/
def get_run (input : List Nat) (ip ip_bound ref : Nat) : Nat :=
  let x := ep_byte input (ip - 1)
  get_run_fast input x ip_bound ip ip_bound ref

/-- Number of leading positions of an 8-byte window where `ref` and `ip`
bytes agree. -/
def ep_match_mismatch (input : List Nat) (ip ref : Nat) : Nat :=
  ((List.range 8).takeWhile
    (fun k => ep_byte input (ref + k) == ep_byte input (ip + k))).length

/-- Remainder loop of `get_match`: the C loop
`while ((ip < ip_bound) && (*ref++ == *ip++))` post-increments, so on a
mismatch it exits one byte past the differing position.  Fuel-structural
as in `get_run_tail`. -/
def get_match_tail (input : List Nat) :
    Nat → Nat → Nat → Nat → Nat
  | 0, ip, _ip_bound, _ref => ip
  | fuel + 1, ip, ip_bound, ref =>
    if ip < ip_bound then
      if ep_byte input ref = ep_byte input ip then
        get_match_tail input fuel (ip + 1) ip_bound (ref + 1)
      else ip + 1
    else ip

/-- Fast 8-byte-stride loop of `get_match`; on a block mismatch the
rescan `while (*ref++ == *ip++)` overshoots by one. -/
def get_match_fast (input : List Nat) :
    Nat → Nat → Nat → Nat → Nat
  | 0, ip, _ip_bound, _ref => ip
  | fuel + 1, ip, ip_bound, ref =>
    if ip + 8 < ip_bound then
      if (List.range 8).all
          (fun k => ep_byte input (ref + k) == ep_byte input (ip + k)) then
        get_match_fast input fuel (ip + 8) ip_bound (ref + 8)
      else ip + ep_match_mismatch input ip ref + 1
    else get_match_tail input ip_bound ip ip_bound ref

/-- `get_match`: extend a match of `ip` against `ref`. -/
def get_match (input : List Nat) (ip ip_bound ref : Nat) : Nat :=
  get_match_fast input ip_bound ip ip_bound ref

/-- `get_run_or_match`: zero (biased) distance means a run. -/
def get_run_or_match (input : List Nat) (ip ip_bound ref : Nat)
    (run : Bool) : Nat :=
  if run then get_run input ip ip_bound ref
  else get_match input ip ip_bound ref

/-- The `LITERAL2` macro: account one literal byte; a full group of
`MAX_COPY` literals costs one extra header byte.  Takes `(anchor, copy,
oc)` and returns the new `(ip, copy, oc)` (the macro sets
`ip = ++anchor`). -/
def ep_literal2 (anchor copy oc : Nat) : Nat × Nat × Nat :=
  let oc := oc + 1
  let anchor := anchor + 1
  let ip := anchor
  let copy := copy + 1
  if copy = MAX_COPY then (ip, 0, oc + 1) else (ip, copy, oc)

/-- Main loop of `get_cratio` as a fuel-indexed recursion; arguments are
`fuel, ip, oc, copy, htab` and the result is the final `(ip, oc)`.  Each
iteration advances `ip` by at least one while the entry guard
`ip + 12 < limit` holds, so `limit` units of fuel are never exhausted;
the loop guard is the C pointer comparison `ip < ibase + limit - 12` and
the match bound `ip_bound` is `ibase + limit - 1`. -/
def ep_scan (input : List Nat) (limit minlen ipshift : Nat) :
    Nat → Nat → Nat → Nat → (Nat → Nat) → Nat × Nat
  | 0, ip, oc, _copy, _htab => (ip, oc)
  | fuel + 1, ip, oc, copy, htab =>
    if ip + 12 < limit then
      let anchor := ip
      let seq := ep_readU32 input ip
      let hval := ep_hash seq
      let ref := htab hval
      let distance := anchor - ref
      let htab1 : Nat → Nat := fun j => if j = hval then anchor else htab j
      if distance = 0 ∨ MAX_FARDISTANCE ≤ distance then
        let t := ep_literal2 anchor copy oc
        ep_scan input limit minlen ipshift fuel t.1 t.2.2 t.2.1 htab1
      else if ep_readU32 input ref ≠ ep_readU32 input ip then
        let t := ep_literal2 anchor copy oc
        ep_scan input limit minlen ipshift fuel t.1 t.2.2 t.2.1 htab1
      else
        let ref := ref + 4
        let ip := anchor + 4
        let distance := distance - 1
        let ip := get_run_or_match input ip (limit - 1) ref (distance == 0)
        let ip := ip - ipshift
        let len := ip - anchor
        if len < minlen then
          let t := ep_literal2 anchor copy oc
          ep_scan input limit minlen ipshift fuel t.1 t.2.2 t.2.1 htab1
        else
          let oc := if copy = 0 then oc - 1 else oc
          let copy := 0
          let oc := oc + (if 7 ≤ len then (len - 7) / 255 + 1 else 0) +
            (if distance < MAX_DISTANCE then 2 else 4)
          let seq2 := ep_readU32 input ip
          let hval2 := ep_hash seq2
          let htab2 : Nat → Nat := fun j => if j = hval2 then ip else htab1 j
          let ip := ip + 2
          let oc := oc + 1
          ep_scan input limit minlen ipshift fuel ip oc copy htab2
    else (ip, oc)

/-- The scan of `get_cratio` packaged with its prelude: truncate to the
hash window (`limit`), `memset` the stack hash table to zero, start with
`copy = 4` and `oc = 5`; returns the final scan position and the output
counter. -/
def ep_scan_of (junk : Nat → Nat) (input : List Nat)
    (maxlen minlen ipshift : Nat) : Nat × Nat :=
  let limit : Nat := if ep_hashlen < maxlen then ep_hashlen else maxlen
  let htab : Nat → Nat := fun i => if i < ep_hashlen then 0 else junk i
  ep_scan input limit minlen ipshift limit 0 5 4 htab

/-- `get_cratio`: the estimated compression ratio
`(ip - ibase) / (float)oc`.  `junk` is the arbitrary initial content of
the on-stack hash table. -/
def get_cratio (junk : Nat → Nat) (input : List Nat)
    (maxlen minlen ipshift : Nat) : ℚ :=
  let p := ep_scan_of junk input maxlen minlen ipshift
  (p.1 : ℚ) / (p.2 : ℚ)

/-- The registered entropy-probe `encoder`: estimate the compressed size
as `input_len / cratio`, clamped to `input_len`.  When the scan never ran
(`maxlen < 13`) the returned cratio is exactly 0; in C the float division
then yields infinity and the conversion to `int` is undefined behaviour,
modelled as `none`.  The quotient is nonnegative, so the C truncation
toward zero is `⌊·⌋`. -/
def encoder (junk : Nat → Nat) (input : List Nat) (input_len : Nat) :
    Option Int :=
  let cr := get_cratio junk input input_len 3 3
  if cr = 0 then none
  else
    let cbytes : Int := ⌊(input_len : ℚ) / cr⌋
    some (if (input_len : Int) < cbytes then (input_len : Int) else cbytes)

/-! Spec-side definitions and shared concrete instances used by the
witnesses and counterexamples below. -/

/-- The BALANCED-band improvement condition exactly as the spec words it
(`(cr>1 ∧ s>1) ∨ (cr>1.1 ∧ s>0.8) ∨ (cr>1.3 ∧ s>0.5)`), for comparison
with the source-derived `has_improved`. -/
def has_improved_balanced_spec (score_coef cratio_coef : ℚ) : Prop :=
  (cratio_coef > 1 ∧ score_coef > 1) ∨
  (cratio_coef > 1.1 ∧ score_coef > 0.8) ∨
  (cratio_coef > 1.3 ∧ score_coef > 0.5)

/-- Two candidate tuples agree on every parameter and measurement field
(everything except the four search-direction flags). -/
def cparams_same_params (a b : cparams_btune) : Prop :=
  a.compcode = b.compcode ∧ a.filter = b.filter ∧
  a.splitmode = b.splitmode ∧ a.clevel = b.clevel ∧
  a.blocksize = b.blocksize ∧ a.shufflesize = b.shufflesize ∧
  a.nthreads_comp = b.nthreads_comp ∧
  a.nthreads_decomp = b.nthreads_decomp ∧
  a.score = b.score ∧ a.cratio = b.cratio ∧
  a.ctime = b.ctime ∧ a.dtime = b.dtime

instance (a b : cparams_btune) : Decidable (cparams_same_params a b) := by
  unfold cparams_same_params
  infer_instance

/-- Erase the four search-direction flags of a tuple; two tuples are
`cparams_same_params` exactly when their flag-stripped forms coincide. -/
def strip_flags (a : cparams_btune) : cparams_btune :=
  { a with
    increasing_clevel := false
    increasing_block := false
    increasing_shuffle := false
    increasing_nthreads := false }

/-- The thread-count invariant: the winning and scratch tuples keep both
thread counts within `[1, max_threads]`. -/
def threads_inv (st : btune_struct) : Prop :=
  1 ≤ st.best.nthreads_comp ∧ st.best.nthreads_comp ≤ st.max_threads ∧
  1 ≤ st.best.nthreads_decomp ∧
  st.best.nthreads_decomp ≤ st.max_threads ∧
  1 ≤ st.aux_cparams.nthreads_comp ∧
  st.aux_cparams.nthreads_comp ≤ st.max_threads ∧
  1 ≤ st.aux_cparams.nthreads_decomp ∧
  st.aux_cparams.nthreads_decomp ≤ st.max_threads

instance (st : btune_struct) : Decidable (threads_inv st) := by
  unfold threads_inv
  infer_instance

/-- A sample behaviour: 1 soft between hards, 2 hards, no waits. -/
def sample_behaviour : BtuneBehaviour :=
  { nwaits_before_readapt := 0
    nsofts_before_hard := 1
    nhards_before_stop := 2
    repeat_mode := BtuneRepeatMode.REPEAT_ALL }

/-- A sample configuration in the BALANCED tradeoff band. -/
def sample_config : BtuneConfig :=
  { perf_mode := BtunePerfMode.COMP
    tradeoff := mkRat 1 2
    bandwidth := 1
    behaviour := sample_behaviour
    cparams_hint := false }

/-- A sample compression context. -/
def sample_ctx : BloscContext :=
  { compcode := BLOSC_LZ4
    filters := [0, 0, 0, 0, 0, BLOSC_SHUFFLE]
    filters_meta := [0, 0, 0, 0, 0, 0]
    splitmode := BLOSC_ALWAYS_SPLIT
    clevel := 9
    blocksize := 0
    typesize := 4
    schunk_typesize := 4
    nthreads := 2
    new_nthreads := 2
    sourcesize := 4096
    destsize := 0
    dest_nonnull := true }

/-- The tuner state right after `btune_init` on the samples above. -/
def sample_btune : btune_struct :=
  btune_init sample_config sample_ctx
    (some { nthreads := 3, new_nthreads := 3 }) true true

/-- A state in the CLEVEL phase about to take its first step there
(`aux_index = 1`), used to exhibit the direction-flag flip on a
special chunk. -/
def sample_clevel_state : btune_struct :=
  { sample_btune with
    state := BtuneState.CLEVEL
    aux_index := 1
    clevel_index := 3
    step_size := 1 }

/-! Theorems.  Each claim of CLAIMS.json gets exactly one theorem below
(plus a witness or counterexample where required). -/

/-- C6: for every `(ctime, cbytes, dtime)`, with `reduced = cbytes/1024`,
`score_function` returns `ctime + reduced/bandwidth` under COMP,
`reduced/bandwidth + dtime` under DECOMP, and
`ctime + reduced/bandwidth + dtime` under BALANCED. -/
theorem score_function_matches_spec (st : btune_struct) (ctime dtime : ℚ)
    (cbytes : Int) :
    score_function
      { st with config := { st.config with
          perf_mode := BtunePerfMode.COMP } } ctime cbytes dtime =
      ctime + ((cbytes : ℚ) / 1024) / st.config.bandwidth ∧
    score_function
      { st with config := { st.config with
          perf_mode := BtunePerfMode.DECOMP } } ctime cbytes dtime =
      ((cbytes : ℚ) / 1024) / st.config.bandwidth + dtime ∧
    score_function
      { st with config := { st.config with
          perf_mode := BtunePerfMode.BALANCED } } ctime cbytes dtime =
      ctime + ((cbytes : ℚ) / 1024) / st.config.bandwidth + dtime := by
  refine ⟨?_, ?_, ?_⟩ <;> simp [score_function, BTUNE_KB]

/-- C1 (code bug): in the BALANCED band the claim says `has_improved`
follows the three-clause disjunction; because the C band guards
`tradeoff <= 1/3` and `tradeoff <= 2/3` use integer division (both
right-hand sides are 0), a BALANCED tradeoff of 1/2 falls through to the
HIGH-CR rule `cratio_coef > 1`.  At `score_coef = 3/10`,
`cratio_coef = 2` the code answers `true` while the claimed disjunction
is false. -/
theorem has_improved_balanced_band_bug :
    mkRat 1 3 < sample_btune.config.tradeoff ∧
    sample_btune.config.tradeoff ≤ mkRat 2 3 ∧
    has_improved sample_btune (mkRat 3 10) 2 = true ∧
    ¬ has_improved_balanced_spec (mkRat 3 10) 2 := by
  refine ⟨by decide, by decide, by decide, ?_⟩
  unfold has_improved_balanced_spec
  norm_num

/-- C2 (code bug): with tradeoff 1/2 (BALANCED band) and a ZSTD tuple of
clevel 9, the claim says `set_btune_cparams` caps the tuple's clevel to
3.  The C guard `1/3 <= tradeoff <= 2/3` parses as `(0 <= t) <= 0`,
which is false for every valid tradeoff, so the BALANCED cap never
fires; only the (always-true) HIGH-CR guard caps the tuple to 6 — and
the context keeps the uncapped 9, assigned before the guards. -/
theorem set_btune_cparams_balanced_cap_bug :
    mkRat 1 3 < sample_btune.config.tradeoff ∧
    sample_btune.config.tradeoff ≤ mkRat 2 3 ∧
    (set_btune_cparams sample_ctx sample_btune
      { cparams_btune_default with
          compcode := BLOSC_ZSTD, clevel := 9 }).2.2.clevel = 6 ∧
    (set_btune_cparams sample_ctx sample_btune
      { cparams_btune_default with
          compcode := BLOSC_ZSTD, clevel := 9 }).1.clevel = 9 := by
  refine ⟨by decide, by decide, by decide, by decide⟩

/-! Helper lemmas for the codec-list characterization (C3). -/

lemma add_codec_config (st : btune_struct) (c : Nat) :
    (add_codec st c).config = st.config := by
  unfold add_codec
  split <;> rfl

lemma add_codec_codecs (st : btune_struct) (c : Nat) :
    (add_codec st c).codecs =
      if c ∈ st.codecs then st.codecs else st.codecs ++ [c] := by
  unfold add_codec
  split <;> simp_all

lemma add_filter_codecs (st : btune_struct) (f : Nat) :
    (add_filter st f).codecs = st.codecs := by
  unfold add_filter
  split <;> rfl

lemma add_filter_config (st : btune_struct) (f : Nat) :
    (add_filter st f).config = st.config := by
  unfold add_filter
  split <;> rfl

lemma init_hard_codecs (st : btune_struct) :
    (init_hard st).codecs = st.codecs := by
  unfold init_hard
  dsimp only
  split <;> rfl

lemma btune_init_codecs_chr (st : btune_struct) (za zl : Bool)
    (h : st.codecs = []) :
    (btune_init_codecs st za zl).codecs =
      if (mkRat 666666 1000000 : ℚ) ≤ st.config.tradeoff then
        (if za then [BLOSC_ZSTD] else []) ++ (if zl then [BLOSC_ZLIB] else [])
      else
        [BLOSC_LZ4] ++
        (if (mkRat 333333 1000000 : ℚ) ≤ st.config.tradeoff then
          [BLOSC_BLOSCLZ] else []) ++
        (if st.config.perf_mode = BtunePerfMode.DECOMP then
          [BLOSC_LZ4HC] else []) := by
  unfold btune_init_codecs
  simp only [add_codec_config]
  rcases za <;> rcases zl <;>
    split_ifs <;>
      simp_all [add_codec_codecs, add_codec_config, BLOSC_ZSTD, BLOSC_ZLIB,
        BLOSC_LZ4, BLOSC_BLOSCLZ, BLOSC_LZ4HC]

lemma btune_init_lists_codecs (st : btune_struct) (za zl : Bool) :
    (btune_init_lists st za zl).codecs =
      (btune_init_codecs st za zl).codecs := by
  unfold btune_init_lists btune_init_clevels
  simp only [add_filter_codecs]

lemma btune_init_tuples_codecs (st : btune_struct) (cctx : BloscContext) :
    (btune_init_tuples st cctx).codecs = st.codecs := by
  unfold btune_init_tuples
  dsimp only
  split_ifs <;> rcases hdd : st.dctx <;> simp only [hdd]

lemma btune_init_phase_codecs (st : btune_struct) (cctx : BloscContext)
    (hh : st.config.cparams_hint = false) :
    (btune_init_phase st cctx).codecs = st.codecs := by
  unfold btune_init_phase
  simp only [hh, Bool.false_eq_true, if_false, init_hard_codecs]
  split <;> simp [init_hard_codecs]

lemma btune_init_codecs_config (st : btune_struct) (za zl : Bool) :
    (btune_init_codecs st za zl).config = st.config := by
  unfold btune_init_codecs
  split_ifs <;>
    simp [add_codec_config, apply_ite btune_struct.config]

lemma btune_init_lists_config (st : btune_struct) (za zl : Bool) :
    (btune_init_lists st za zl).config = st.config := by
  unfold btune_init_lists btune_init_clevels
  simp only [add_filter_config, btune_init_codecs_config]

lemma btune_init_tuples_config (st : btune_struct) (cctx : BloscContext) :
    (btune_init_tuples st cctx).config = st.config := by
  unfold btune_init_tuples
  dsimp only
  split_ifs <;> rcases hdd : st.dctx <;> simp only [hdd]

lemma btune_init_config_tradeoff (cfg : BtuneConfig)
    (h0 : 0 ≤ cfg.tradeoff) (h1 : cfg.tradeoff ≤ 1) :
    (btune_init_config cfg).tradeoff = cfg.tradeoff := by
  unfold btune_init_config
  dsimp only
  split_ifs <;> first
    | rfl
    | (rename_i hor
       rcases hor with hlt | hlt <;> simp_all <;> linarith)

lemma btune_init_config_hint (cfg : BtuneConfig) :
    (btune_init_config cfg).cparams_hint = cfg.cparams_hint := by
  unfold btune_init_config
  dsimp only
  split_ifs <;> rfl

lemma btune_init_config_perf_decomp (cfg : BtuneConfig) :
    ((btune_init_config cfg).perf_mode = BtunePerfMode.DECOMP) ↔
      (cfg.perf_mode = BtunePerfMode.DECOMP) := by
  unfold btune_init_config
  dsimp only
  split_ifs <;> simp_all

/-- C3 (amended): after init with `cparams_hint = false` and inference
disabled, the admissible codec list is: when `0.666666 ≤ tradeoff`, the
available ones among ZSTD and ZLIB; otherwise LZ4, plus BLOSCLZ when
`0.333333 ≤ tradeoff`, plus LZ4HC when the performance mode is DECOMP
(in the BALANCED band as well as in LOW-CR). -/
theorem codecs_after_init_chr (cfg : BtuneConfig) (cctx : BloscContext)
    (dctx : Option DctxModel) (za zl : Bool)
    (hh : cfg.cparams_hint = false)
    (h0 : 0 ≤ cfg.tradeoff) (h1 : cfg.tradeoff ≤ 1) :
    (btune_init cfg cctx dctx za zl).codecs =
      if (mkRat 666666 1000000 : ℚ) ≤ cfg.tradeoff then
        (if za then [BLOSC_ZSTD] else []) ++ (if zl then [BLOSC_ZLIB] else [])
      else
        [BLOSC_LZ4] ++
        (if (mkRat 333333 1000000 : ℚ) ≤ cfg.tradeoff then
          [BLOSC_BLOSCLZ] else []) ++
        (if cfg.perf_mode = BtunePerfMode.DECOMP then
          [BLOSC_LZ4HC] else []) := by
  unfold btune_init
  rw [btune_init_phase_codecs, btune_init_tuples_codecs,
      btune_init_lists_codecs, btune_init_codecs_chr]
  · rw [show (btune_init_base (btune_init_config cfg) dctx).config =
        btune_init_config cfg from rfl]
    rw [btune_init_config_tradeoff cfg h0 h1]
    by_cases hd : cfg.perf_mode = BtunePerfMode.DECOMP
    · simp [hd, (btune_init_config_perf_decomp cfg).mpr hd]
    · simp only [hd, if_false]
      rw [if_neg (fun hc => hd ((btune_init_config_perf_decomp cfg).mp hc))]
  · rfl
  · rw [btune_init_tuples_config, btune_init_lists_config]
    rw [show (btune_init_base (btune_init_config cfg) dctx).config =
        btune_init_config cfg from rfl]
    rw [btune_init_config_hint]
    exact hh

/-- C3 (counterexample): with tradeoff 1/2 (BALANCED band), DECOMP
performance mode, `cparams_hint = false` and inference disabled, the
codec list after init is `[LZ4, BLOSCLZ, LZ4HC]` — the claim's
"exactly LZ4 and BLOSCLZ" is false because the code adds LZ4HC in every
non-HIGH-CR band when `perf_mode` is DECOMP, not only in LOW-CR. -/
theorem codecs_balanced_decomp_counterexample :
    sample_config.cparams_hint = false ∧
    mkRat 1 3 < sample_config.tradeoff ∧
    sample_config.tradeoff ≤ mkRat 2 3 ∧
    (btune_init { sample_config with perf_mode := BtunePerfMode.DECOMP }
        sample_ctx none true true).codecs =
      [BLOSC_LZ4, BLOSC_BLOSCLZ, BLOSC_LZ4HC] ∧
    [BLOSC_LZ4, BLOSC_BLOSCLZ, BLOSC_LZ4HC] ≠ [BLOSC_LZ4, BLOSC_BLOSCLZ] := by
  decide

/-- Witness for C3's amended theorem at a concrete BALANCED/COMP
configuration. -/
theorem codecs_after_init_chr_witness :
    sample_config.cparams_hint = false ∧ 0 ≤ sample_config.tradeoff ∧
    sample_config.tradeoff ≤ 1 ∧
    (btune_init sample_config sample_ctx none true true).codecs =
      (if (mkRat 666666 1000000 : ℚ) ≤ sample_config.tradeoff then
        (if true then [BLOSC_ZSTD] else []) ++
          (if true then [BLOSC_ZLIB] else [])
      else
        [BLOSC_LZ4] ++
        (if (mkRat 333333 1000000 : ℚ) ≤ sample_config.tradeoff then
          [BLOSC_BLOSCLZ] else []) ++
        (if sample_config.perf_mode = BtunePerfMode.DECOMP then
          [BLOSC_LZ4HC] else [])) :=
  ⟨by decide, by decide, by decide,
    codecs_after_init_chr sample_config sample_ctx none true true
      (by decide) (by decide) (by decide)⟩

/-! Helper lemmas for STOP-state termination (C4). -/

lemma btune_next_cparams_stop (ctx : BloscContext) (st : btune_struct)
    (h : st.state = BtuneState.STOP) (hic : st.inference_count = 0)
    (hie : st.inference_ended = true) :
    btune_next_cparams ctx st = (ctx, { st with aux_cparams := st.best }) := by
  have hpre : btune_next_inference st = st := by
    unfold btune_next_inference
    simp [hic, hie]
  unfold btune_next_cparams
  rw [hpre]
  dsimp only
  split
  next heq => rfl
  all_goals simp_all [h]

lemma btune_update_stop (ctx : BloscContext) (st : btune_struct)
    (ctime dtime : ℚ) (h : st.state = BtuneState.STOP) :
    btune_update ctx st ctime dtime = (st, none) := by
  unfold btune_update
  simp [h]

/-- C4: the STOP state is terminal — with inference exhausted (the
regime in which STOP is reached; the inference front-end is absent from
the sources and modelled as disabled), every subsequent sequence of
`next_cparams`/`update` calls leaves the state STOP, leaves `best`
untouched, and never writes the context's compression parameters. -/
theorem stop_state_terminal (ctx : BloscContext) (st : btune_struct)
    (acts : List BtuneAction)
    (h : st.state = BtuneState.STOP) (hic : st.inference_count = 0)
    (hie : st.inference_ended = true) :
    (btune_run ctx st acts).2.state = BtuneState.STOP ∧
    (btune_run ctx st acts).2.best = st.best ∧
    (btune_run ctx st acts).1.compcode = ctx.compcode ∧
    (btune_run ctx st acts).1.filters = ctx.filters ∧
    (btune_run ctx st acts).1.filters_meta = ctx.filters_meta ∧
    (btune_run ctx st acts).1.splitmode = ctx.splitmode ∧
    (btune_run ctx st acts).1.clevel = ctx.clevel ∧
    (btune_run ctx st acts).1.blocksize = ctx.blocksize ∧
    (btune_run ctx st acts).1.typesize = ctx.typesize ∧
    (btune_run ctx st acts).1.new_nthreads = ctx.new_nthreads := by
  induction acts generalizing ctx st with
  | nil => simp [btune_run, h]
  | cons a rest ih =>
    cases a with
    | next =>
        have hrun : btune_run ctx st (BtuneAction.next :: rest) =
            btune_run (btune_next_cparams ctx st).1
              (btune_next_cparams ctx st).2 rest := rfl
        rw [hrun, btune_next_cparams_stop ctx st h hic hie]
        have := ih ctx { st with aux_cparams := st.best } h hic hie
        simpa using this
    | update ctime cbytes dtime =>
        have hrun : btune_run ctx st
            (BtuneAction.update ctime cbytes dtime :: rest) =
            btune_run { ctx with destsize := cbytes }
              (btune_update { ctx with destsize := cbytes } st ctime
                dtime).1 rest := rfl
        rw [hrun, btune_update_stop _ st ctime dtime h]
        have := ih { ctx with destsize := cbytes } st h hic hie
        simpa using this

/-- Witness for C4 at a concrete stopped state and a concrete call
sequence. -/
theorem stop_state_terminal_witness :
    ({ sample_btune with
        state := BtuneState.STOP
        inference_ended := true } : btune_struct).state = BtuneState.STOP ∧
    (btune_run sample_ctx
        { sample_btune with
          state := BtuneState.STOP
          inference_ended := true }
        [BtuneAction.next, BtuneAction.update 1 100 0]).2.state =
      BtuneState.STOP ∧
    (btune_run sample_ctx
        { sample_btune with
          state := BtuneState.STOP
          inference_ended := true }
        [BtuneAction.next, BtuneAction.update 1 100 0]).2.best =
      ({ sample_btune with
          state := BtuneState.STOP
          inference_ended := true } : btune_struct).best :=
  ⟨by decide,
   (stop_state_terminal sample_ctx
      { sample_btune with
        state := BtuneState.STOP
        inference_ended := true }
      [BtuneAction.next, BtuneAction.update 1 100 0]
      (by decide) (by decide) (by decide)).1,
   (stop_state_terminal sample_ctx
      { sample_btune with
        state := BtuneState.STOP
        inference_ended := true }
      [BtuneAction.next, BtuneAction.update 1 100 0]
      (by decide) (by decide) (by decide)).2.1⟩

/-! Helper lemmas for the special-chunk behaviour (C5): everything the
state machine does to `best` without an improvement is flag flips. -/

lemma strip_flags_clevel (a : cparams_btune) (v : Bool) :
    strip_flags { a with increasing_clevel := v } = strip_flags a := rfl

lemma strip_flags_shuffle (a : cparams_btune) (v : Bool) :
    strip_flags { a with increasing_shuffle := v } = strip_flags a := rfl

lemma strip_flags_nthreads (a : cparams_btune) (v : Bool) :
    strip_flags { a with increasing_nthreads := v } = strip_flags a := rfl

lemma init_soft_best_strip (st : btune_struct) :
    strip_flags (init_soft st).best = strip_flags st.best := by
  unfold init_soft
  dsimp only
  split_ifs <;> rfl

lemma init_hard_best_strip (st : btune_struct) :
    strip_flags (init_hard st).best = strip_flags st.best := by
  unfold init_hard
  dsimp only
  split_ifs <;> rfl

lemma process_waiting_core_best_strip (st : btune_struct) :
    strip_flags (process_waiting_core st).best = strip_flags st.best := by
  unfold process_waiting_core
  dsimp only
  split <;>
    split_ifs <;>
      simp_all [init_soft_best_strip, init_hard_best_strip]

lemma process_waiting_state_best_strip (st : btune_struct) :
    strip_flags (process_waiting_state st).best = strip_flags st.best := by
  unfold process_waiting_state
  dsimp only
  split_ifs <;> simp [process_waiting_core_best_strip]

lemma update_aux_switch_best_strip (st : btune_struct) (improved : Bool) :
    strip_flags (update_aux_switch st improved).best =
      strip_flags st.best := by
  unfold update_aux_switch
  dsimp only
  simp only [BTUNE_ENABLE_SHUFFLESIZE, BTUNE_ENABLE_THREADS,
    BTUNE_ENABLE_MEMCPY, Bool.false_eq_true, if_false, if_true,
    ite_false, ite_true]
  split <;>
    simp only [apply_ite btune_struct.best, apply_ite strip_flags,
      strip_flags_clevel, strip_flags_shuffle, strip_flags_nthreads,
      ite_self]

lemma update_aux_best_strip (st : btune_struct) (improved : Bool) :
    strip_flags (update_aux st improved).best = strip_flags st.best := by
  unfold update_aux
  dsimp only
  split_ifs <;>
    simp [update_aux_switch_best_strip, process_waiting_state_best_strip]

lemma csp_of_strip_eq (a b : cparams_btune)
    (h : strip_flags a = strip_flags b) : cparams_same_params a b := by
  unfold strip_flags at h
  simp only [cparams_btune.mk.injEq] at h
  unfold cparams_same_params
  simp_all

/-- C5 (amended): on a special chunk (`cbytes ≤ BLOSC2_MAX_OVERHEAD +
typesize`), `btune_update` marks the step not improved with winner label
S, and `best` is not overwritten: all its parameter and measurement
fields are unchanged (only the search-direction flags may still be
toggled by the state transition).  `rep_index = 0` holds on entry to
every reachable `update` call (it starts at 0 and is reset each call). -/
theorem special_chunk_keeps_best (ctx : BloscContext) (st : btune_struct)
    (ctime dtime : ℚ) (h1 : st.state ≠ BtuneState.STOP)
    (h2 : st.rep_index = 0)
    (h3 : ctx.destsize ≤ (BLOSC2_MAX_OVERHEAD : Int) + ctx.typesize) :
    (btune_update ctx st ctime dtime).2 = some (false, 'S') ∧
    cparams_same_params (btune_update ctx st ctime dtime).1.best
      st.best := by
  unfold btune_update
  rw [if_neg h1]
  dsimp only
  rw [h2]
  simp only [Nat.zero_add, if_pos rfl, if_pos h3, if_true, ite_true,
    Bool.false_eq_true, if_false, ite_false]
  constructor
  · trivial
  · exact csp_of_strip_eq _ _ (update_aux_best_strip _ false)

/-- C5 (counterexample): on a special chunk in the CLEVEL state with
`aux_index = 1`, the step is marked `S` and the `best` tuple is NOT left
unchanged — its `increasing_clevel` direction flag is flipped by the
first-step heuristic, refuting the claim that best is left unchanged. -/
theorem special_chunk_flips_best_flag :
    ({ sample_ctx with destsize := 30 } : BloscContext).destsize ≤
      (BLOSC2_MAX_OVERHEAD : Int) +
        ({ sample_ctx with destsize := 30 } : BloscContext).typesize ∧
    (btune_update { sample_ctx with destsize := 30 } sample_clevel_state
        1 0).2 = some (false, 'S') ∧
    (btune_update { sample_ctx with destsize := 30 } sample_clevel_state
        1 0).1.best ≠ sample_clevel_state.best := by
  refine ⟨by decide, by decide, by decide⟩

/-- Witness for C5's amended theorem at a concrete special chunk. -/
theorem special_chunk_keeps_best_witness :
    sample_clevel_state.state ≠ BtuneState.STOP ∧
    sample_clevel_state.rep_index = 0 ∧
    ({ sample_ctx with destsize := 30 } : BloscContext).destsize ≤
      (BLOSC2_MAX_OVERHEAD : Int) +
        ({ sample_ctx with destsize := 30 } : BloscContext).typesize ∧
    ((btune_update { sample_ctx with destsize := 30 } sample_clevel_state
        1 0).2 = some (false, 'S') ∧
     cparams_same_params
       (btune_update { sample_ctx with destsize := 30 } sample_clevel_state
         1 0).1.best
       sample_clevel_state.best) :=
  ⟨by decide, by decide, by decide,
    special_chunk_keeps_best { sample_ctx with destsize := 30 }
      sample_clevel_state 1 0 (by decide) (by decide) (by decide)⟩

/-! Helper lemmas for the thread-count invariant (C7). -/

lemma btune_next_inference_shape (st : btune_struct) :
    ∃ c e, btune_next_inference st =
      { st with inference_count := c, inference_ended := e } := by
  unfold btune_next_inference
  split_ifs <;> exact ⟨_, _, rfl⟩

lemma set_btune_cparams_shape (ctx : BloscContext) (st : btune_struct)
    (cp : cparams_btune) :
    (set_btune_cparams ctx st cp).2.1.best = st.best ∧
    (set_btune_cparams ctx st cp).2.1.max_threads = st.max_threads ∧
    (set_btune_cparams ctx st cp).2.2.nthreads_comp = cp.nthreads_comp ∧
    (set_btune_cparams ctx st cp).2.2.nthreads_decomp =
      cp.nthreads_decomp := by
  unfold set_btune_cparams
  dsimp only
  split_ifs <;> rcases hd : st.dctx <;> simp [hd]

lemma next_finish_shape (ctx : BloscContext) (st : btune_struct)
    (cp : cparams_btune) :
    (btune_next_cparams.finish ctx st cp).2.best = st.best ∧
    (btune_next_cparams.finish ctx st cp).2.max_threads = st.max_threads ∧
    (btune_next_cparams.finish ctx st cp).2.aux_cparams.nthreads_comp =
      cp.nthreads_comp ∧
    (btune_next_cparams.finish ctx st cp).2.aux_cparams.nthreads_decomp =
      cp.nthreads_decomp := by
  unfold btune_next_cparams.finish
  dsimp only
  obtain ⟨h1, h2, h3, h4⟩ := set_btune_cparams_shape ctx st cp
  exact ⟨h1, h2, h3, h4⟩

lemma btune_next_cparams_threads (ctx : BloscContext) (st : btune_struct)
    (h : threads_inv st) :
    threads_inv (btune_next_cparams ctx st).2 ∧
    (btune_next_cparams ctx st).2.max_threads = st.max_threads := by
  obtain ⟨c, e, hpre⟩ := btune_next_inference_shape st
  unfold threads_inv at h
  unfold btune_next_cparams
  rw [hpre]
  dsimp only
  split <;>
    · unfold threads_inv
      simp only [next_finish_shape, MIN_THREADS]
      (try dsimp only)
      (try split_ifs) <;> (try dsimp only) <;>
        exact ⟨by omega, by trivial⟩

lemma init_soft_aux_max (st : btune_struct) :
    (init_soft st).aux_cparams = st.aux_cparams ∧
    (init_soft st).max_threads = st.max_threads := by
  unfold init_soft
  dsimp only
  split_ifs <;> exact ⟨rfl, rfl⟩

lemma init_hard_aux_max (st : btune_struct) :
    (init_hard st).aux_cparams = st.aux_cparams ∧
    (init_hard st).max_threads = st.max_threads := by
  unfold init_hard
  dsimp only
  split_ifs <;> exact ⟨rfl, rfl⟩

lemma process_waiting_core_aux_max (st : btune_struct) :
    (process_waiting_core st).aux_cparams = st.aux_cparams ∧
    (process_waiting_core st).max_threads = st.max_threads := by
  unfold process_waiting_core
  dsimp only
  split <;>
    split_ifs <;>
      simp_all [init_soft_aux_max, init_hard_aux_max]

lemma process_waiting_state_aux_max (st : btune_struct) :
    (process_waiting_state st).aux_cparams = st.aux_cparams ∧
    (process_waiting_state st).max_threads = st.max_threads := by
  unfold process_waiting_state
  dsimp only
  split_ifs <;> simp [process_waiting_core_aux_max]

lemma update_aux_switch_aux_max (st : btune_struct) (improved : Bool) :
    (update_aux_switch st improved).aux_cparams = st.aux_cparams ∧
    (update_aux_switch st improved).max_threads = st.max_threads := by
  unfold update_aux_switch
  dsimp only
  simp only [BTUNE_ENABLE_SHUFFLESIZE, BTUNE_ENABLE_THREADS,
    BTUNE_ENABLE_MEMCPY, Bool.false_eq_true, if_false, if_true,
    ite_false, ite_true]
  constructor <;>
    · split <;>
        simp only [apply_ite btune_struct.aux_cparams,
          apply_ite btune_struct.max_threads, ite_self]

lemma update_aux_aux_max (st : btune_struct) (improved : Bool) :
    (update_aux st improved).aux_cparams = st.aux_cparams ∧
    (update_aux st improved).max_threads = st.max_threads := by
  unfold update_aux
  dsimp only
  split_ifs <;>
    simp [update_aux_switch_aux_max, process_waiting_state_aux_max]

lemma update_aux_best_nthreads (st : btune_struct) (improved : Bool) :
    (update_aux st improved).best.nthreads_comp =
      st.best.nthreads_comp ∧
    (update_aux st improved).best.nthreads_decomp =
      st.best.nthreads_decomp := by
  have hs := update_aux_best_strip st improved
  have h1 : (strip_flags (update_aux st improved).best).nthreads_comp =
      (strip_flags st.best).nthreads_comp := congrArg _ hs
  have h2 : (strip_flags (update_aux st improved).best).nthreads_decomp =
      (strip_flags st.best).nthreads_decomp := congrArg _ hs
  exact ⟨h1, h2⟩

lemma btune_update_threads (ctx : BloscContext) (st : btune_struct)
    (ctime dtime : ℚ) (h : threads_inv st) :
    threads_inv (btune_update ctx st ctime dtime).1 ∧
    (btune_update ctx st ctime dtime).1.max_threads = st.max_threads := by
  unfold threads_inv at h
  unfold btune_update
  unfold threads_inv
  dsimp only
  split_ifs <;>
    (try dsimp only) <;>
      (try simp only [update_aux_best_nthreads, update_aux_aux_max]) <;>
        (try dsimp only) <;> first
          | contradiction
          | exact ⟨by omega, trivial⟩
          | omega

lemma init_soft_threads_fields (st : btune_struct) :
    (init_soft st).best.nthreads_comp = st.best.nthreads_comp ∧
    (init_soft st).best.nthreads_decomp = st.best.nthreads_decomp ∧
    (init_soft st).aux_cparams = st.aux_cparams ∧
    (init_soft st).max_threads = st.max_threads := by
  unfold init_soft
  dsimp only
  split_ifs <;> exact ⟨rfl, rfl, rfl, rfl⟩

lemma init_hard_threads_fields (st : btune_struct) :
    (init_hard st).best.nthreads_comp = st.best.nthreads_comp ∧
    (init_hard st).best.nthreads_decomp = st.best.nthreads_decomp ∧
    (init_hard st).aux_cparams = st.aux_cparams ∧
    (init_hard st).max_threads = st.max_threads := by
  unfold init_hard
  dsimp only
  split_ifs <;> exact ⟨rfl, rfl, rfl, rfl⟩

lemma init_without_hards_threads_fields (st : btune_struct) :
    (init_without_hards st).best.nthreads_comp = st.best.nthreads_comp ∧
    (init_without_hards st).best.nthreads_decomp =
      st.best.nthreads_decomp ∧
    (init_without_hards st).aux_cparams = st.aux_cparams ∧
    (init_without_hards st).max_threads = st.max_threads := by
  unfold init_without_hards
  dsimp only
  split <;>
    split_ifs <;>
      simp_all [init_soft_threads_fields, init_hard_threads_fields]

lemma btune_init_tuples_threads (st : btune_struct) (cctx : BloscContext)
    (hc : 1 ≤ cctx.nthreads)
    (hd : ∀ d, st.dctx = some d → 1 ≤ d.nthreads) :
    threads_inv (btune_init_tuples st cctx) ∧
    1 ≤ (btune_init_tuples st cctx).nthreads_decomp ∧
    (btune_init_tuples st cctx).nthreads_decomp ≤
      (btune_init_tuples st cctx).max_threads ∧
    cctx.nthreads ≤ (btune_init_tuples st cctx).max_threads ∧
    (∀ d, (btune_init_tuples st cctx).dctx = some d →
      1 ≤ d.nthreads ∧ d.nthreads ≤
        (btune_init_tuples st cctx).max_threads) := by
  unfold btune_init_tuples threads_inv
  dsimp only
  split_ifs <;> rcases hdd : st.dctx with _ | d <;> dsimp only <;>
    refine ⟨⟨?_, ?_, ?_, ?_, ?_, ?_, ?_, ?_⟩, ?_, ?_, ?_, ?_⟩ <;>
      first
        | omega
        | (have h5 := hd d hdd
           omega)
        | (intro d2 hdeq
           have h5 := hd d hdd
           cases hdeq
           omega)
        | (intro d2 hdeq
           exact Option.noConfusion hdeq)

lemma add_codec_threads (st : btune_struct) (c : Nat) :
    (add_codec st c).best = st.best ∧
    (add_codec st c).aux_cparams = st.aux_cparams ∧
    (add_codec st c).max_threads = st.max_threads := by
  unfold add_codec
  split <;> exact ⟨rfl, rfl, rfl⟩

lemma btune_init_phase_threads (st : btune_struct) (cctx : BloscContext)
    (h : threads_inv st)
    (hnd1 : 1 ≤ st.nthreads_decomp)
    (hnd2 : st.nthreads_decomp ≤ st.max_threads)
    (hc1 : 1 ≤ cctx.nthreads) (hc2 : cctx.nthreads ≤ st.max_threads)
    (hdd : ∀ d, st.dctx = some d →
      1 ≤ d.nthreads ∧ d.nthreads ≤ st.max_threads) :
    threads_inv (btune_init_phase st cctx) ∧
    (btune_init_phase st cctx).max_threads = st.max_threads := by
  unfold threads_inv at h
  unfold btune_init_phase extract_btune_cparams threads_inv
  dsimp only
  rcases hd2 : st.dctx with _ | d <;>
    simp only [hd2] <;>
      split_ifs <;>
        (try dsimp only) <;>
          simp only [add_codec_threads, init_soft_threads_fields,
            init_hard_threads_fields, init_without_hards_threads_fields] <;>
            (try dsimp only) <;>
              first
                | omega
                | exact ⟨by omega, trivial⟩
                | (have h6 := hdd d hd2
                   omega)
                | (have h6 := hdd d hd2
                   exact ⟨by omega, trivial⟩)

lemma add_codec_dctx (st : btune_struct) (c : Nat) :
    (add_codec st c).dctx = st.dctx := by
  unfold add_codec
  split <;> rfl

lemma add_filter_dctx (st : btune_struct) (f : Nat) :
    (add_filter st f).dctx = st.dctx := by
  unfold add_filter
  split <;> rfl

lemma btune_init_codecs_dctx (st : btune_struct) (za zl : Bool) :
    (btune_init_codecs st za zl).dctx = st.dctx := by
  unfold btune_init_codecs
  split_ifs <;>
    simp [add_codec_dctx, apply_ite btune_struct.dctx]

lemma btune_init_lists_dctx (st : btune_struct) (za zl : Bool) :
    (btune_init_lists st za zl).dctx = st.dctx := by
  unfold btune_init_lists btune_init_clevels
  simp only [add_filter_dctx, btune_init_codecs_dctx]

lemma btune_init_threads (cfg : BtuneConfig) (cctx : BloscContext)
    (dctx : Option DctxModel) (za zl : Bool)
    (h1 : 1 ≤ cctx.nthreads)
    (h2 : ∀ d, dctx = some d → 1 ≤ d.nthreads) :
    threads_inv (btune_init cfg cctx dctx za zl) := by
  unfold btune_init
  have hdc :
      (btune_init_lists (btune_init_base (btune_init_config cfg) dctx)
        za zl).dctx = dctx := by
    rw [btune_init_lists_dctx]
    rfl
  have ht := btune_init_tuples_threads
    (btune_init_lists (btune_init_base (btune_init_config cfg) dctx) za zl)
    cctx h1 (fun d hd => h2 d (hdc ▸ hd))
  exact (btune_init_phase_threads _ cctx ht.1 ht.2.1 ht.2.2.1 h1
    ht.2.2.2.1 ht.2.2.2.2).1

lemma btune_run_threads (ctx : BloscContext) (st : btune_struct)
    (acts : List BtuneAction) (h : threads_inv st) :
    threads_inv (btune_run ctx st acts).2 ∧
    (btune_run ctx st acts).2.max_threads = st.max_threads := by
  induction acts generalizing ctx st with
  | nil => exact ⟨h, rfl⟩
  | cons a rest ih =>
    cases a with
    | next =>
        have hn := btune_next_cparams_threads ctx st h
        have hr := ih (btune_next_cparams ctx st).1
          (btune_next_cparams ctx st).2 hn.1
        exact ⟨hr.1, hr.2.trans hn.2⟩
    | update ctime cbytes dtime =>
        have hu := btune_update_threads { ctx with destsize := cbytes } st
          ctime dtime h
        have hr := ih { ctx with destsize := cbytes }
          (btune_update { ctx with destsize := cbytes } st ctime dtime).1
          hu.1
        exact ⟨hr.1, hr.2.trans hu.2⟩

/-- C7: after an init whose initial thread counts are at least 1 (they
are at most `max_threads` by construction, since `max_threads` is their
maximum), every sequence of `next_cparams`/`update` calls keeps
`best.nthreads_comp` and `best.nthreads_decomp` within
`[1, max_threads]`, and `max_threads` itself never changes. -/
theorem best_nthreads_bounded (cfg : BtuneConfig) (cctx : BloscContext)
    (dctx : Option DctxModel) (za zl : Bool) (acts : List BtuneAction)
    (h1 : 1 ≤ cctx.nthreads)
    (h2 : ∀ d, dctx = some d → 1 ≤ d.nthreads) :
    1 ≤ (btune_run cctx (btune_init cfg cctx dctx za zl)
          acts).2.best.nthreads_comp ∧
    (btune_run cctx (btune_init cfg cctx dctx za zl)
        acts).2.best.nthreads_comp ≤
      (btune_run cctx (btune_init cfg cctx dctx za zl)
        acts).2.max_threads ∧
    1 ≤ (btune_run cctx (btune_init cfg cctx dctx za zl)
          acts).2.best.nthreads_decomp ∧
    (btune_run cctx (btune_init cfg cctx dctx za zl)
        acts).2.best.nthreads_decomp ≤
      (btune_run cctx (btune_init cfg cctx dctx za zl)
        acts).2.max_threads ∧
    (btune_run cctx (btune_init cfg cctx dctx za zl)
        acts).2.max_threads =
      (btune_init cfg cctx dctx za zl).max_threads := by
  have hi := btune_init_threads cfg cctx dctx za zl h1 h2
  have hr := btune_run_threads cctx (btune_init cfg cctx dctx za zl)
    acts hi
  obtain ⟨⟨a1, a2, a3, a4, _, _, _, _⟩, hmax⟩ := hr
  exact ⟨a1, a2, a3, a4, hmax⟩

/-- Witness for C7 at a concrete configuration and call sequence. -/
theorem best_nthreads_bounded_witness :
    (1 : Int) ≤ sample_ctx.nthreads ∧
    (1 ≤ (btune_run sample_ctx
          (btune_init sample_config sample_ctx
            (some { nthreads := 3, new_nthreads := 3 }) true true)
          [BtuneAction.next, BtuneAction.update 1 100 0,
           BtuneAction.next, BtuneAction.update 1 50 0]).2.best.nthreads_comp ∧
     (btune_run sample_ctx
        (btune_init sample_config sample_ctx
          (some { nthreads := 3, new_nthreads := 3 }) true true)
        [BtuneAction.next, BtuneAction.update 1 100 0,
         BtuneAction.next, BtuneAction.update 1 50 0]).2.best.nthreads_comp ≤
      (btune_run sample_ctx
        (btune_init sample_config sample_ctx
          (some { nthreads := 3, new_nthreads := 3 }) true true)
        [BtuneAction.next, BtuneAction.update 1 100 0,
         BtuneAction.next, BtuneAction.update 1 50 0]).2.max_threads ∧
     1 ≤ (btune_run sample_ctx
          (btune_init sample_config sample_ctx
            (some { nthreads := 3, new_nthreads := 3 }) true true)
          [BtuneAction.next, BtuneAction.update 1 100 0,
           BtuneAction.next,
           BtuneAction.update 1 50 0]).2.best.nthreads_decomp ∧
     (btune_run sample_ctx
        (btune_init sample_config sample_ctx
          (some { nthreads := 3, new_nthreads := 3 }) true true)
        [BtuneAction.next, BtuneAction.update 1 100 0,
         BtuneAction.next,
         BtuneAction.update 1 50 0]).2.best.nthreads_decomp ≤
      (btune_run sample_ctx
        (btune_init sample_config sample_ctx
          (some { nthreads := 3, new_nthreads := 3 }) true true)
        [BtuneAction.next, BtuneAction.update 1 100 0,
         BtuneAction.next, BtuneAction.update 1 50 0]).2.max_threads ∧
     (btune_run sample_ctx
        (btune_init sample_config sample_ctx
          (some { nthreads := 3, new_nthreads := 3 }) true true)
        [BtuneAction.next, BtuneAction.update 1 100 0,
         BtuneAction.next, BtuneAction.update 1 50 0]).2.max_threads =
      (btune_init sample_config sample_ctx
        (some { nthreads := 3, new_nthreads := 3 }) true true).max_threads) :=
  ⟨by decide,
    best_nthreads_bounded sample_config sample_ctx
      (some { nthreads := 3, new_nthreads := 3 }) true true
      [BtuneAction.next, BtuneAction.update 1 100 0,
       BtuneAction.next, BtuneAction.update 1 50 0]
      (by decide) (by intro d hd; cases hd; decide)⟩

/-! Helper lemmas for the entropy probe (C8, C9, C10). -/

lemma ep_hash_lt (seq : Nat) : ep_hash seq < ep_hashlen := by
  unfold ep_hash ep_hashlen HASH_LOG
  have h1 : seq * 2654435761 % 2 ^ 32 < 2 ^ 32 :=
    Nat.mod_lt _ (by norm_num)
  omega

lemma ep_update_agree (N k v : Nat) (h1 h2 : Nat → Nat)
    (hagree : ∀ j, j < N → h1 j = h2 j) :
    ∀ j, j < N → (if j = k then v else h1 j) = (if j = k then v else h2 j) := by
  intro j hj
  split_ifs <;> simp [hagree j hj]

lemma ep_scan_htab_agree (input : List Nat) (limit minlen ipshift : Nat) :
    ∀ (fuel ip oc copy : Nat) (h1 h2 : Nat → Nat),
      (∀ j, j < ep_hashlen → h1 j = h2 j) →
      ep_scan input limit minlen ipshift fuel ip oc copy h1 =
        ep_scan input limit minlen ipshift fuel ip oc copy h2 := by
  intro fuel
  induction fuel with
  | zero => intro ip oc copy h1 h2 _; rfl
  | succ n ih =>
      intro ip oc copy h1 h2 hagree
      have href : h1 (ep_hash (ep_readU32 input ip)) =
          h2 (ep_hash (ep_readU32 input ip)) :=
        hagree _ (ep_hash_lt _)
      unfold ep_scan
      dsimp only
      rw [href]
      split_ifs <;>
        first
          | rfl
          | (apply ih
             exact fun j hj => ep_update_agree _ _ _ h1 h2 hagree j hj)
          | (apply ih
             intro j hj
             exact ep_update_agree _ _ _ _ _
               (fun j2 hj2 => ep_update_agree _ _ _ h1 h2 hagree j2 hj2) j hj)

/-- C9: the entropy probe is deterministic — the result of `get_cratio`
and of the registered `encoder` does not depend on the arbitrary initial
(stack) content of the hash table, which `memset` zeroes before the scan
ever reads it; two calls on identical inputs therefore return identical
estimates. -/
theorem entropy_probe_deterministic (junk1 junk2 : Nat → Nat)
    (input : List Nat) (maxlen minlen ipshift input_len : Nat) :
    get_cratio junk1 input maxlen minlen ipshift =
      get_cratio junk2 input maxlen minlen ipshift ∧
    encoder junk1 input input_len = encoder junk2 input input_len := by
  have hscan : ∀ m mi s, ep_scan_of junk1 input m mi s =
      ep_scan_of junk2 input m mi s := by
    intro m mi s
    unfold ep_scan_of
    dsimp only
    apply ep_scan_htab_agree
    intro j hj
    simp [hj]
  constructor
  · unfold get_cratio
    rw [hscan]
  · unfold encoder get_cratio
    rw [hscan]

lemma ep_all_congr {α : Type} (xs : List α) (f g : α → Bool)
    (hfg : ∀ x ∈ xs, f x = g x) : xs.all f = xs.all g := by
  induction xs with
  | nil => rfl
  | cons y rest ihr =>
      have hy : f y = g y := hfg y (List.mem_cons_self y rest)
      have hrest : rest.all f = rest.all g :=
        ihr fun z hz => hfg z (List.mem_cons_of_mem y hz)
      simp only [List.all_cons, hy, hrest]

lemma ep_takeWhile_congr {α : Type} (xs : List α) (f g : α → Bool)
    (hfg : ∀ x ∈ xs, f x = g x) : xs.takeWhile f = xs.takeWhile g := by
  induction xs with
  | nil => rfl
  | cons y rest ihr =>
      have hy : f y = g y := hfg y (List.mem_cons_self y rest)
      have hrest : rest.takeWhile f = rest.takeWhile g :=
        ihr fun z hz => hfg z (List.mem_cons_of_mem y hz)
      simp only [List.takeWhile_cons, hy, hrest]

lemma ep_takeWhile_length_le {α : Type} (l : List α) (p : α → Bool) :
    (l.takeWhile p).length ≤ l.length := by
  induction l with
  | nil => simp
  | cons a t ih =>
      simp only [List.takeWhile_cons]
      split <;> simp <;> omega

lemma get_run_tail_le (input : List Nat) (x : Nat) :
    ∀ fuel ip bound ref, ip ≤ bound →
      get_run_tail input x fuel ip bound ref ≤ bound := by
  intro fuel
  induction fuel with
  | zero => intro ip bound ref h; exact h
  | succ n ih =>
      intro ip bound ref h
      unfold get_run_tail
      split_ifs with h1 h2
      · exact ih _ _ _ (by omega)
      · omega
      · omega

lemma get_run_fast_le (input : List Nat) (x : Nat) :
    ∀ fuel ip bound ref, ip ≤ bound →
      get_run_fast input x fuel ip bound ref ≤ bound := by
  intro fuel
  induction fuel with
  | zero => intro ip bound ref h; exact h
  | succ n ih =>
      intro ip bound ref h
      unfold get_run_fast
      split_ifs with h1 h2
      · exact ih _ _ _ (by omega)
      · have := ep_takeWhile_length_le (List.range 8)
          (fun k => ep_byte input (ref + k) == x)
        unfold ep_run_mismatch
        simp only [List.length_range] at this ⊢
        omega
      · exact get_run_tail_le input x _ _ _ _ h

lemma get_match_tail_le (input : List Nat) :
    ∀ fuel ip bound ref, ip ≤ bound →
      get_match_tail input fuel ip bound ref ≤ bound := by
  intro fuel
  induction fuel with
  | zero => intro ip bound ref h; exact h
  | succ n ih =>
      intro ip bound ref h
      unfold get_match_tail
      split_ifs with h1 h2
      · exact ih _ _ _ (by omega)
      · omega
      · omega

lemma get_match_fast_le (input : List Nat) :
    ∀ fuel ip bound ref, ip ≤ bound →
      get_match_fast input fuel ip bound ref ≤ bound := by
  intro fuel
  induction fuel with
  | zero => intro ip bound ref h; exact h
  | succ n ih =>
      intro ip bound ref h
      unfold get_match_fast
      split_ifs with h1 h2
      · exact ih _ _ _ (by omega)
      · have := ep_takeWhile_length_le (List.range 8)
          (fun k => ep_byte input (ref + k) == ep_byte input (ip + k))
        unfold ep_match_mismatch
        simp only [List.length_range] at this ⊢
        omega
      · exact get_match_tail_le input _ _ _ _ h

lemma get_run_or_match_le (input : List Nat) (ip bound ref : Nat)
    (run : Bool) (h : ip ≤ bound) :
    get_run_or_match input ip bound ref run ≤ bound := by
  unfold get_run_or_match get_run get_match
  split_ifs
  · exact get_run_fast_le input _ _ _ _ _ h
  · exact get_match_fast_le input _ _ _ _ h

lemma get_run_tail_agree (l1 l2 : List Nat) (limit x : Nat)
    (hb : ∀ i, i < limit → ep_byte l1 i = ep_byte l2 i) :
    ∀ fuel ip bound ref, ref < ip → bound ≤ limit →
      get_run_tail l1 x fuel ip bound ref =
        get_run_tail l2 x fuel ip bound ref := by
  intro fuel
  induction fuel with
  | zero => intros; rfl
  | succ n ih =>
      intro ip bound ref hr hbd
      unfold get_run_tail
      by_cases h1 : ip < bound
      · simp only [if_pos h1]
        rw [hb ref (by omega)]
        split
        · exact ih _ _ _ (by omega) hbd
        · rfl
      · simp only [if_neg h1]

lemma get_run_fast_agree (l1 l2 : List Nat) (limit x : Nat)
    (hb : ∀ i, i < limit → ep_byte l1 i = ep_byte l2 i) :
    ∀ fuel ip bound ref, ref < ip → bound ≤ limit →
      get_run_fast l1 x fuel ip bound ref =
        get_run_fast l2 x fuel ip bound ref := by
  intro fuel
  induction fuel with
  | zero => intros; rfl
  | succ n ih =>
      intro ip bound ref hr hbd
      unfold get_run_fast
      by_cases h1 : ip + 8 < bound
      · simp only [if_pos h1]
        have hall : ((List.range 8).all fun k => ep_byte l1 (ref + k) == x)
            = ((List.range 8).all fun k => ep_byte l2 (ref + k) == x) := by
          apply ep_all_congr
          intro a ha
          have ha8 : a < 8 := List.mem_range.mp ha
          rw [hb (ref + a) (by omega)]
        have hmm : ep_run_mismatch l1 x ref = ep_run_mismatch l2 x ref := by
          unfold ep_run_mismatch
          rw [ep_takeWhile_congr _ _ (fun k => ep_byte l2 (ref + k) == x)]
          intro a ha
          have ha8 : a < 8 := List.mem_range.mp ha
          rw [hb (ref + a) (by omega)]
        rw [hall, hmm]
        split
        · exact ih _ _ _ (by omega) hbd
        · rfl
      · simp only [if_neg h1]
        exact get_run_tail_agree l1 l2 limit x hb _ _ _ _ hr hbd

lemma get_match_tail_agree (l1 l2 : List Nat) (limit : Nat)
    (hb : ∀ i, i < limit → ep_byte l1 i = ep_byte l2 i) :
    ∀ fuel ip bound ref, ref < ip → bound ≤ limit →
      get_match_tail l1 fuel ip bound ref =
        get_match_tail l2 fuel ip bound ref := by
  intro fuel
  induction fuel with
  | zero => intros; rfl
  | succ n ih =>
      intro ip bound ref hr hbd
      unfold get_match_tail
      by_cases h1 : ip < bound
      · simp only [if_pos h1]
        rw [hb ref (by omega), hb ip (by omega)]
        split
        · exact ih _ _ _ (by omega) hbd
        · rfl
      · simp only [if_neg h1]

lemma get_match_fast_agree (l1 l2 : List Nat) (limit : Nat)
    (hb : ∀ i, i < limit → ep_byte l1 i = ep_byte l2 i) :
    ∀ fuel ip bound ref, ref < ip → bound ≤ limit →
      get_match_fast l1 fuel ip bound ref =
        get_match_fast l2 fuel ip bound ref := by
  intro fuel
  induction fuel with
  | zero => intros; rfl
  | succ n ih =>
      intro ip bound ref hr hbd
      unfold get_match_fast
      by_cases h1 : ip + 8 < bound
      · simp only [if_pos h1]
        have hall : ((List.range 8).all
              fun k => ep_byte l1 (ref + k) == ep_byte l1 (ip + k))
            = ((List.range 8).all
              fun k => ep_byte l2 (ref + k) == ep_byte l2 (ip + k)) := by
          apply ep_all_congr
          intro a ha
          have ha8 : a < 8 := List.mem_range.mp ha
          rw [hb (ref + a) (by omega), hb (ip + a) (by omega)]
        have hmm : ep_match_mismatch l1 ip ref =
            ep_match_mismatch l2 ip ref := by
          unfold ep_match_mismatch
          rw [ep_takeWhile_congr _ _
            (fun k => ep_byte l2 (ref + k) == ep_byte l2 (ip + k))]
          intro a ha
          have ha8 : a < 8 := List.mem_range.mp ha
          rw [hb (ref + a) (by omega), hb (ip + a) (by omega)]
        rw [hall, hmm]
        split
        · exact ih _ _ _ (by omega) hbd
        · rfl
      · simp only [if_neg h1]
        exact get_match_tail_agree l1 l2 limit hb _ _ _ _ hr hbd

lemma get_run_or_match_agree (l1 l2 : List Nat) (limit : Nat)
    (hb : ∀ i, i < limit → ep_byte l1 i = ep_byte l2 i)
    (ip bound ref : Nat) (run : Bool)
    (hr : ref < ip) (hbd : bound ≤ limit) (h1 : 1 ≤ ip) (h2 : ip ≤ limit) :
    get_run_or_match l1 ip bound ref run =
      get_run_or_match l2 ip bound ref run := by
  unfold get_run_or_match get_run get_match
  dsimp only
  rw [hb (ip - 1) (by omega)]
  split
  · exact get_run_fast_agree l1 l2 limit _ hb _ _ _ _ hr hbd
  · exact get_match_fast_agree l1 l2 limit hb _ _ _ _ hr hbd

lemma ep_readU32_agree (l1 l2 : List Nat) (limit : Nat)
    (hb : ∀ i, i < limit → ep_byte l1 i = ep_byte l2 i)
    (i : Nat) (h : i + 3 < limit) :
    ep_readU32 l1 i = ep_readU32 l2 i := by
  unfold ep_readU32
  rw [hb i (by omega), hb (i + 1) (by omega), hb (i + 2) (by omega),
    hb (i + 3) (by omega)]

lemma ep_scan_input_agree (l1 l2 : List Nat) (limit minlen ipshift : Nat)
    (his : 3 ≤ ipshift)
    (hb : ∀ i, i < limit → ep_byte l1 i = ep_byte l2 i) :
    ∀ fuel ip oc copy htab,
      ep_scan l1 limit minlen ipshift fuel ip oc copy htab =
        ep_scan l2 limit minlen ipshift fuel ip oc copy htab := by
  intro fuel
  induction fuel with
  | zero => intros; rfl
  | succ n ih =>
      intro ip oc copy htab
      unfold ep_scan
      dsimp only
      by_cases hguard : ip + 12 < limit
      · simp only [if_pos hguard]
        have hr32ip : ep_readU32 l1 ip = ep_readU32 l2 ip :=
          ep_readU32_agree l1 l2 limit hb ip (by omega)
        rw [hr32ip]
        by_cases hdist : ip - htab (ep_hash (ep_readU32 l2 ip)) = 0 ∨
            MAX_FARDISTANCE ≤ ip - htab (ep_hash (ep_readU32 l2 ip))
        · simp only [if_pos hdist]
          exact ih _ _ _ _
        · simp only [if_neg hdist]
          have href : htab (ep_hash (ep_readU32 l2 ip)) < ip := by
            rcases Nat.lt_or_ge (htab (ep_hash (ep_readU32 l2 ip))) ip with h | h
            · exact h
            · exact absurd (Or.inl (by omega)) hdist
          have hr32ref : ep_readU32 l1 (htab (ep_hash (ep_readU32 l2 ip))) =
              ep_readU32 l2 (htab (ep_hash (ep_readU32 l2 ip))) :=
            ep_readU32_agree l1 l2 limit hb _ (by omega)
          rw [hr32ref]
          by_cases hne : ep_readU32 l2 (htab (ep_hash (ep_readU32 l2 ip))) ≠
              ep_readU32 l2 ip
          · simp only [if_pos hne]
            exact ih _ _ _ _
          · simp only [if_neg hne]
            have hrm : get_run_or_match l1 (ip + 4) (limit - 1)
                  (htab (ep_hash (ep_readU32 l2 ip)) + 4)
                  ((ip - htab (ep_hash (ep_readU32 l2 ip)) - 1) == 0) =
                get_run_or_match l2 (ip + 4) (limit - 1)
                  (htab (ep_hash (ep_readU32 l2 ip)) + 4)
                  ((ip - htab (ep_hash (ep_readU32 l2 ip)) - 1) == 0) :=
              get_run_or_match_agree l1 l2 limit hb _ _ _ _
                (by omega) (by omega) (by omega) (by omega)
            rw [hrm]
            by_cases hlen : get_run_or_match l2 (ip + 4) (limit - 1)
                  (htab (ep_hash (ep_readU32 l2 ip)) + 4)
                  ((ip - htab (ep_hash (ep_readU32 l2 ip)) - 1) == 0) -
                ipshift - ip < minlen
            · simp only [if_pos hlen]
              exact ih _ _ _ _
            · simp only [if_neg hlen]
              have hple : get_run_or_match l2 (ip + 4) (limit - 1)
                    (htab (ep_hash (ep_readU32 l2 ip)) + 4)
                    ((ip - htab (ep_hash (ep_readU32 l2 ip)) - 1) == 0) ≤
                  limit - 1 :=
                get_run_or_match_le l2 _ _ _ _ (by omega)
              have hr32p : ep_readU32 l1
                    (get_run_or_match l2 (ip + 4) (limit - 1)
                      (htab (ep_hash (ep_readU32 l2 ip)) + 4)
                      ((ip - htab (ep_hash (ep_readU32 l2 ip)) - 1) == 0) -
                      ipshift) =
                  ep_readU32 l2
                    (get_run_or_match l2 (ip + 4) (limit - 1)
                      (htab (ep_hash (ep_readU32 l2 ip)) + 4)
                      ((ip - htab (ep_hash (ep_readU32 l2 ip)) - 1) == 0) -
                      ipshift) :=
                ep_readU32_agree l1 l2 limit hb _ (by omega)
              rw [hr32p]
              exact ih _ _ _ _
      · simp only [if_neg hguard]

lemma ep_byte_take : ∀ (l : List Nat) (n i : Nat), i < n →
    ep_byte (l.take n) i = ep_byte l i := by
  intro l
  induction l with
  | nil => intro n i _; simp [ep_byte]
  | cons a t ih =>
      intro n i h
      cases n with
      | zero => omega
      | succ m =>
          cases i with
          | zero => simp [ep_byte]
          | succ j =>
              simp only [List.take_succ_cons, ep_byte, List.getD_cons_succ]
              exact ih m j (by omega)

lemma ep_literal2_facts (anchor copy oc : Nat) :
    (ep_literal2 anchor copy oc).1 = anchor + 1 ∧
    oc + 1 ≤ (ep_literal2 anchor copy oc).2.2 := by
  unfold ep_literal2
  dsimp only
  split
  · refine ⟨rfl, ?_⟩
    dsimp only
    omega
  · refine ⟨rfl, ?_⟩
    dsimp only
    omega

lemma ep_scan_ge (input : List Nat) (limit minlen ipshift : Nat) :
    ∀ fuel ip oc copy htab,
      oc ≤ (ep_scan input limit minlen ipshift fuel ip oc copy htab).2 ∧
      (1 ≤ ip → 1 ≤ (ep_scan input limit minlen ipshift fuel ip oc copy htab).1) := by
  intro fuel
  induction fuel with
  | zero => intro ip oc copy htab; exact ⟨le_refl _, fun h => h⟩
  | succ n ih =>
      intro ip oc copy htab
      unfold ep_scan
      dsimp only
      split_ifs <;>
        first
          | exact ⟨le_refl _, fun h => h⟩
          | (have hl := ep_literal2_facts ip copy oc
             refine ⟨le_trans ?_ (ih _ _ _ _).1,
               fun _ => (ih _ _ _ _).2 ?_⟩ <;> omega)
          | (refine ⟨le_trans ?_ (ih _ _ _ _).1,
               fun _ => (ih _ _ _ _).2 ?_⟩ <;> omega)

lemma ep_scan_succ_pos (input : List Nat) (limit minlen ipshift : Nat)
    (fuel ip oc copy : Nat) (htab : Nat → Nat) (hg : ip + 12 < limit) :
    1 ≤ (ep_scan input limit minlen ipshift (fuel + 1) ip oc copy htab).1 := by
  unfold ep_scan
  dsimp only
  rw [if_pos hg]
  split_ifs <;>
    first
      | (have hl := ep_literal2_facts ip copy oc
         exact (ep_scan_ge input limit minlen ipshift fuel _ _ _ _).2 (by omega))
      | exact (ep_scan_ge input limit minlen ipshift fuel _ _ _ _).2 (by omega)

lemma ep_scan_of_pos (junk : Nat → Nat) (input : List Nat)
    (maxlen minlen ipshift : Nat) (h : 13 ≤ maxlen) :
    1 ≤ (ep_scan_of junk input maxlen minlen ipshift).1 ∧
    5 ≤ (ep_scan_of junk input maxlen minlen ipshift).2 := by
  have hhl : ep_hashlen = 16384 := by decide
  unfold ep_scan_of
  dsimp only
  constructor
  · have h1 := ep_scan_succ_pos input
      (if ep_hashlen < maxlen then ep_hashlen else maxlen) minlen ipshift
      ((if ep_hashlen < maxlen then ep_hashlen else maxlen) - 1) 0 5 4
      (fun i => if i < ep_hashlen then 0 else junk i)
      (by split <;> omega)
    rw [show ((if ep_hashlen < maxlen then ep_hashlen else maxlen) - 1) + 1 =
        (if ep_hashlen < maxlen then ep_hashlen else maxlen) from
      by split <;> omega] at h1
    exact h1
  · exact (ep_scan_ge input
      (if ep_hashlen < maxlen then ep_hashlen else maxlen) minlen ipshift
      (if ep_hashlen < maxlen then ep_hashlen else maxlen) 0 5 4
      (fun i => if i < ep_hashlen then 0 else junk i)).1

/-- C8 counterexample: on twenty zero bytes with `maxlen = 20` the scan
stops at `ip = 18` (the loop guard `ip < ibase + limit - 12` fails before
the input is exhausted), so `get_cratio` returns `18/10`, not
`input_len/oc = 20/10`: the numerator is the distance scanned, not
`input_len`. -/
theorem get_cratio_numerator_counterexample :
    (ep_scan_of (fun _ => 0) (List.replicate 20 0) 20 3 3).2 = 10 ∧
    get_cratio (fun _ => 0) (List.replicate 20 0) 20 3 3 ≠ (20 : ℚ) / 10 := by
  have hs : ep_scan_of (fun _ => 0) (List.replicate 20 0) 20 3 3 = (18, 10) := by
    decide
  constructor
  · rw [hs]
  · unfold get_cratio
    dsimp only
    rw [hs]
    norm_num

/-- C8 (amended): `get_cratio` returns `(ip − ibase)/oc` — the distance
actually scanned over the accumulated output counter, where the scan
covers at most `limit = min(2^14, maxlen)` bytes and stops when
`ip + 12 < limit` first fails, so the numerator is in general smaller
than `input_len`; the truncation part of the claim is right: with the
fixed `ipshift ≥ 3` the scan reads no byte at or beyond `limit`, so
truncating the input to the hash window leaves the result unchanged. -/
theorem get_cratio_scanned_over_oc (junk : Nat → Nat) (input : List Nat)
    (maxlen minlen ipshift : Nat) (his : 3 ≤ ipshift) :
    get_cratio junk input maxlen minlen ipshift =
      ((ep_scan_of junk input maxlen minlen ipshift).1 : ℚ) /
        ((ep_scan_of junk input maxlen minlen ipshift).2 : ℚ) ∧
    get_cratio junk
        (input.take (if ep_hashlen < maxlen then ep_hashlen else maxlen))
        maxlen minlen ipshift =
      get_cratio junk input maxlen minlen ipshift := by
  constructor
  · rfl
  · have hscan : ep_scan_of junk
        (input.take (if ep_hashlen < maxlen then ep_hashlen else maxlen))
        maxlen minlen ipshift =
        ep_scan_of junk input maxlen minlen ipshift := by
      unfold ep_scan_of
      dsimp only
      apply ep_scan_input_agree _ _ _ _ _ his
      intro i hi
      exact ep_byte_take input _ i hi
    unfold get_cratio
    dsimp only
    rw [hscan]

theorem get_cratio_scanned_over_oc_witness :
    get_cratio (fun _ => 0) (List.replicate 20 0) 20 3 3 =
      ((ep_scan_of (fun _ => 0) (List.replicate 20 0) 20 3 3).1 : ℚ) /
        ((ep_scan_of (fun _ => 0) (List.replicate 20 0) 20 3 3).2 : ℚ) ∧
    get_cratio (fun _ => 0)
        ((List.replicate 20 0).take (if ep_hashlen < 20 then ep_hashlen else 20))
        20 3 3 =
      get_cratio (fun _ => 0) (List.replicate 20 0) 20 3 3 :=
  get_cratio_scanned_over_oc (fun _ => 0) (List.replicate 20 0) 20 3 3
    (by decide)

/-- C10 counterexample: on a 1-byte input (`input_len = 1`, positive) the
scan loop never runs (`limit = 1 < 13`), `get_cratio` is exactly `0`, the
C quotient `input_len / cratio` is an infinity and its conversion to
`int` is undefined behaviour — modelled as `none`: no compressed-size
estimate bounded by `input_len` is returned. -/
theorem encoder_short_input_none :
    encoder (fun _ => 0) (List.replicate 1 0) 1 = none ∧
    get_cratio (fun _ => 0) (List.replicate 1 0) 1 3 3 = 0 := by
  have hs : ep_scan_of (fun _ => 0) (List.replicate 1 0) 1 3 3 = (0, 5) := by
    decide
  have hcr : get_cratio (fun _ => 0) (List.replicate 1 0) 1 3 3 = 0 := by
    unfold get_cratio
    dsimp only
    rw [hs]
    norm_num
  refine ⟨?_, hcr⟩
  unfold encoder
  dsimp only
  rw [if_pos hcr]

/-- C10 (amended): for every input of length at least 13 (so that the
scan runs at least one iteration and the estimated cratio is a quotient
of positive numbers) the registered entropy-probe encoder returns an
estimate and it never exceeds `input_len`, by the final clamp; for
shorter positive inputs the cratio is 0 and the `int` conversion of the
infinite quotient is undefined behaviour. -/
theorem encoder_le_input_len (junk : Nat → Nat) (input : List Nat)
    (input_len : Nat) (h : 13 ≤ input_len) :
    ∃ c : Int, encoder junk input input_len = some c ∧
      c ≤ (input_len : Int) := by
  obtain ⟨h1, h2⟩ := ep_scan_of_pos junk input input_len 3 3 h
  have hcr : get_cratio junk input input_len 3 3 ≠ 0 := by
    unfold get_cratio
    dsimp only
    have hp1 : (0 : ℚ) < ((ep_scan_of junk input input_len 3 3).1 : ℚ) := by
      exact_mod_cast show 0 < (ep_scan_of junk input input_len 3 3).1 by omega
    have hp2 : (0 : ℚ) < ((ep_scan_of junk input input_len 3 3).2 : ℚ) := by
      exact_mod_cast show 0 < (ep_scan_of junk input input_len 3 3).2 by omega
    exact ne_of_gt (div_pos hp1 hp2)
  unfold encoder
  dsimp only
  rw [if_neg hcr]
  refine ⟨_, rfl, ?_⟩
  split
  · exact le_refl _
  · omega

theorem encoder_le_input_len_witness :
    ∃ c : Int, encoder (fun _ => 0) (List.replicate 13 0) 13 = some c ∧
      c ≤ (13 : Int) :=
  encoder_le_input_len (fun _ => 0) (List.replicate 13 0) 13 (by decide)
